import Mathlib

/-!
# Verification of the picast RTSP/RTP media server core

This file gives a shallow embedding, in Lean 4, of the parts of the
`github.com/rebeljah/picast` Go repository that the specification's claims
are about, and proves (or refutes) each claim against that embedding.

Conventions used throughout:

* Go strings are embedded as `GoStr := List Char` (the sources only deal in
  ASCII, so bytes and runes coincide).  The Go standard-library string
  functions used by the sources (`strings.Split`, `strings.SplitN`,
  `strings.Trim`, `strings.TrimPrefix`, `strings.Index`, `strconv.Atoi`, …)
  are re-implemented here with the same observable behaviour.
* Go maps keyed by strings are embedded as association lists in which an
  assignment `m[k] = v` replaces the binding in place (Go map iteration
  order is unspecified; the association-list order is one admissible order,
  and no claim depends on map iteration order).
* Fallible Go code is embedded in the `Res` monad below: `Res.ok` for a
  normal return, `Res.fail` for a returned `error`, and `Res.crash` for a
  Go runtime panic (out-of-range index, nil-interface method call, …).
* Randomised identifiers (session / stream UIDs) are threaded through the
  state explicitly as "fresh UID" fields, since their exact value never
  matters to the claims, only where they are emitted.
-/

namespace Picast

/-! ## Go string primitives

`GoStr` stands for a Go `string` (equivalently, a `[]byte` of ASCII).
Every function in this section models a Go standard-library function used
by the picast sources, named `go<Name>` after it. -/

abbrev GoStr := List Char

/-- Converts a Lean string literal to the `GoStr` embedding of a Go string. -/
def gs (s : String) : GoStr := s.toList

/-- Go `strings.Split(s, sep)` for a single-character separator. -/
def goSplitChar (c : Char) : GoStr → List GoStr
  | [] => [[]]
  | x :: xs =>
    let r := goSplitChar c xs
    if x = c then [] :: r
    else
      match r with
      | [] => [[x]]
      | h :: t => (x :: h) :: t

/-- Go `strings.Split(s, sep)` for a two-character separator (used for
separators such as `"\r\n"` and `": "`). -/
def goSplitTwo (a b : Char) : GoStr → List GoStr
  | [] => [[]]
  | [x] => [[x]]
  | x :: y :: xs =>
    if x = a ∧ y = b then [] :: goSplitTwo a b xs
    else
      match goSplitTwo a b (y :: xs) with
      | [] => [[x]]
      | h :: t => (x :: h) :: t

/-- Go `strings.Index(s, sep)` for a two-character separator: position of the
first occurrence, or `none` where Go returns `-1`. -/
def goIndexTwo (a b : Char) : GoStr → Option Nat
  | [] => none
  | [_] => none
  | x :: y :: xs =>
    if x = a ∧ y = b then some 0
    else (goIndexTwo a b (y :: xs)).map (· + 1)

/-- Go `strings.SplitN(s, sep, n)` for a single-character separator: at most
`n` pieces, the last piece keeps the remaining separators. -/
def goSplitNChar (c : Char) : Nat → GoStr → List GoStr
  | 0, _ => []
  | 1, s => [s]
  | n + 2, s =>
    match s.findIdx? (· = c) with
    | none => [s]
    | some i => s.take i :: goSplitNChar c (n + 1) (s.drop (i + 1))

/-- Go `strings.SplitN(s, sep, 2)` for the two-character separator `": "`
used by the header-line parser: split at the first occurrence only. -/
def goSplitTwoN2 (a b : Char) (s : GoStr) : List GoStr :=
  match goIndexTwo a b s with
  | none => [s]
  | some i => [s.take i, s.drop (i + 2)]

/-- Go `strings.Trim(s, cutset)`: removes any leading and trailing characters
belonging to `cutset`. -/
def goTrim (s : GoStr) (cutset : List Char) : GoStr :=
  ((s.dropWhile (cutset.contains ·)).reverse.dropWhile (cutset.contains ·)).reverse

/-- Go `strings.TrimPrefix(s, prefix)`. -/
def goTrimPrefix (s pre : GoStr) : GoStr :=
  if pre.isPrefixOf s then s.drop pre.length else s

/-- Go `strings.TrimSpace(s)` restricted to the ASCII whitespace the sources
can encounter. -/
def goTrimSpace (s : GoStr) : GoStr :=
  goTrim s [' ', '\t', '\r', '\n']

/-- Go `strings.Contains(s, sub)` for a two-character `sub`. -/
def goContainsTwo (a b : Char) (s : GoStr) : Bool :=
  (goIndexTwo a b s).isSome

/-- Numeric value of an ASCII digit. -/
def digitVal (c : Char) : Nat := c.toNat - '0'.toNat

/-- Go `strconv.Atoi(s)`: `none` models the returned error. -/
def goAtoi (s : GoStr) : Option Int :=
  let (neg, digits) :=
    match s with
    | '-' :: rest => (true, rest)
    | '+' :: rest => (false, rest)
    | _ => (false, s)
  if digits = [] then none
  else if digits.all (·.isDigit) then
    let n : Nat := digits.foldl (fun acc c => acc * 10 + digitVal c) 0
    some (if neg then -(n : Int) else (n : Int))
  else none

/-- Go `strconv.Atoi` as the sources use it at the two call sites that
discard the error (`portStart, _ := strconv.Atoi(…)`): an unparsable string
yields Go's zero value. -/
def goAtoiD (s : GoStr) : Int := (goAtoi s).getD 0

end Picast

namespace Picast

/-! ## RTSP methods and per-stream states

Embeds `RTSPMethod` / `IsValidRTSPMethod` (src/unnamed/part_001, package
rtsp) and the stream state machine `TrackState` / `streamStateTransitions` /
`TrackState.After` (src/unnamed/part_002; the `StreamStateName` variant in
the same file and the table in it are textually identical). -/

inductive RTSPMethod where
  | OPTIONS | DESCRIBE | ANNOUNCE | SETUP | PLAY | PAUSE | TEARDOWN
  | GET_PARAMETER | SET_PARAMETER | REDIRECT | RECORD
  deriving DecidableEq, Repr

/-- The wire token of each RTSP method (the Go constant values). -/
def RTSPMethod.token : RTSPMethod → GoStr
  | .OPTIONS => gs "OPTIONS"
  | .DESCRIBE => gs "DESCRIBE"
  | .ANNOUNCE => gs "ANNOUNCE"
  | .SETUP => gs "SETUP"
  | .PLAY => gs "PLAY"
  | .PAUSE => gs "PAUSE"
  | .TEARDOWN => gs "TEARDOWN"
  | .GET_PARAMETER => gs "GET_PARAMETER"
  | .SET_PARAMETER => gs "SET_PARAMETER"
  | .REDIRECT => gs "REDIRECT"
  | .RECORD => gs "RECORD"

/-- The `validRTSPMethods` map of the source, as a lookup from wire token to
method. -/
def methodOfToken (s : GoStr) : Option RTSPMethod :=
  [RTSPMethod.OPTIONS, .DESCRIBE, .ANNOUNCE, .SETUP, .PLAY, .PAUSE,
   .TEARDOWN, .GET_PARAMETER, .SET_PARAMETER, .REDIRECT, .RECORD].find?
    (fun m => m.token = s)

/-- Go `IsValidRTSPMethod`. -/
def IsValidRTSPMethod (s : GoStr) : Bool := (methodOfToken s).isSome

/-- The five per-stream states of `TrackState` (src/unnamed/part_002). -/
inductive TrackState where
  | Init | Ready | Playing | Recording | ErrorState
  deriving DecidableEq, Repr

/-- The `streamStateTransitions` nested map (src/unnamed/part_002 lines
193-216): `none` models a `(state, method)` pair absent from the map. -/
def streamStateTransitions : TrackState → RTSPMethod → Option TrackState
  | .Init, .SETUP => some .Ready
  | .Init, .TEARDOWN => some .Init
  | .Ready, .PLAY => some .Playing
  | .Ready, .RECORD => some .Recording
  | .Ready, .TEARDOWN => some .Init
  | .Ready, .SETUP => some .Ready
  | .Playing, .PLAY => some .Playing
  | .Playing, .PAUSE => some .Ready
  | .Playing, .TEARDOWN => some .Init
  | .Playing, .SETUP => some .Playing
  | .Recording, .RECORD => some .Recording
  | .Recording, .PAUSE => some .Ready
  | .Recording, .TEARDOWN => some .Init
  | .Recording, .SETUP => some .Recording
  | _, _ => none

/-- Go `TrackState.After` (src/unnamed/part_002 lines 218-223): table lookup
with `ErrorState` as the default for missing entries. -/
def TrackState.After (s : TrackState) (m : RTSPMethod) : TrackState :=
  (streamStateTransitions s m).getD .ErrorState

/-- One step of the session aggregate-state reduction: the nested `switch`
in the fold body of `StateFromTrackStreamStates` (src/unnamed/part_003
source region, part_002 lines 126-178).  A `(state, otherState)` pair with
no matching inner `case` leaves `state` unchanged, exactly as the Go
`switch` does. -/
def reduceStep : TrackState → TrackState → TrackState
  | .Init, .Init => .Init
  | .Init, .Ready => .Init
  | .Init, .Playing => .ErrorState
  | .Init, .Recording => .ErrorState
  | .Init, .ErrorState => .Init
  | .Ready, .Init => .Init
  | .Ready, .Ready => .Ready
  | .Ready, .Playing => .ErrorState
  | .Ready, .Recording => .ErrorState
  | .Ready, .ErrorState => .Ready
  | .Playing, .Init => .ErrorState
  | .Playing, .Ready => .ErrorState
  | .Playing, .Playing => .Playing
  | .Playing, .Recording => .ErrorState
  | .Playing, .ErrorState => .Playing
  | .Recording, .Init => .ErrorState
  | .Recording, .Ready => .ErrorState
  | .Recording, .Playing => .ErrorState
  | .Recording, .Recording => .Recording
  | .Recording, .ErrorState => .Recording
  | .ErrorState, _ => .ErrorState

/-- Go `StateFromTrackStreamStates` (src/unnamed/part_002 lines 112-181):
empty slice ⇒ `Init`; singleton ⇒ the element; any `ErrorState` element ⇒
`ErrorState`; otherwise a left fold of `reduceStep` over the tail starting
from the head. -/
def StateFromTrackStreamStates (streamStates : List TrackState) : TrackState :=
  match streamStates with
  | [] => .Init
  | [s] => s
  | s :: rest =>
    if (s :: rest).contains .ErrorState then .ErrorState
    else rest.foldl reduceStep s

/-! ## Result monad for fallible Go code

`Res.ok` is a normal return, `Res.fail` a returned non-nil `error`, and
`Res.crash` a Go runtime panic (out-of-range slice index, method call on a
nil interface, nil-pointer dereference). -/

/-- The distinct `error` values the embedded code can return. -/
inductive GoErr where
  | badRequest       -- rtsp.ErrBadRequest
  | invalidFormat    -- rtsp.ErrInvalidFormat
  | headerNotKV      -- "header line not in 'k: v' format"
  | emptyNameOrValue -- "empty name or value in header line"
  | atoiError        -- strconv.Atoi error surfaced by readRequest
  | ioError          -- a read error on the connection (EOF, short read)
  deriving DecidableEq, Repr

inductive Res (α : Type) where
  | ok : α → Res α
  | fail : GoErr → Res α
  | crash : Res α
  deriving Repr, DecidableEq

def Res.bind {α β : Type} : Res α → (α → Res β) → Res β
  | .ok a, f => f a
  | .fail e, _ => .fail e
  | .crash, _ => .crash

instance : Monad Res where
  pure := Res.ok
  bind := Res.bind

/-- Go slice indexing `l[i]`: out of range is a runtime panic. -/
def goIndex {α : Type} (l : List α) (i : Nat) : Res α :=
  match l.get? i with
  | some x => .ok x
  | none => .crash

end Picast

namespace Picast

/-! ## Message codec: header lines, Transport values, Headers

Embeds src/unnamed/part_003 (package rtsp): `GenericHeaderLine`,
`TransportInfo`, `TransportHeaderLine`, `ParseTransportHeaderLine`,
`ParseHeaderLine`, `Headers` and its methods. -/

structure TransportInfo where
  protocol : GoStr
  profile : GoStr
  mode : GoStr
  clientPortStart : Int
  clientPortEnd : Int
  deriving DecidableEq, Repr

/-- A `HeaderLine` value: either a `GenericHeaderLine` or a
`TransportHeaderLine` (which embeds a generic line carrying the raw value
and additionally the parsed transport list). -/
inductive HeaderLine where
  | generic (name rawValue : GoStr)
  | transport (name rawValue : GoStr) (transports : List TransportInfo)
  deriving DecidableEq, Repr

def HeaderLine.name : HeaderLine → GoStr
  | .generic n _ => n
  | .transport n _ _ => n

/-- Go `ValueNoError` (both variants inherit `GenericHeaderLine.Value`,
which returns the raw value and never errors). -/
def HeaderLine.valueNoError : HeaderLine → GoStr
  | .generic _ v => v
  | .transport _ v _ => v

/-- Decimal digits of a natural number. -/
def goNatToStr (n : Nat) : GoStr :=
  if n < 10 then [Char.ofNat ('0'.toNat + n)]
  else goNatToStr (n / 10) ++ [Char.ofNat ('0'.toNat + n % 10)]
  decreasing_by omega

/-- Go `fmt` `%d` formatting of an integer. -/
def goIntToStr (i : Int) : GoStr :=
  if i < 0 then '-' :: goNatToStr i.natAbs else goNatToStr i.toNat

/-- Wire form of one `TransportInfo`:
`PROTOCOL/PROFILE;mode;client_port=N-M` (the body of the `fmt.Appendf` in
`TransportHeaderLine.Marshal`, src/unnamed/part_003 lines 230-236). -/
def TransportInfo.marshal (t : TransportInfo) : GoStr :=
  t.protocol ++ ['/'] ++ t.profile ++ [';'] ++ t.mode ++
    gs ";client_port=" ++ goIntToStr t.clientPortStart ++ ['-'] ++ goIntToStr t.clientPortEnd

/-- Joins marshalled transports with `,` (the loop of
`TransportHeaderLine.Marshal`). -/
def marshalTransports : List TransportInfo → GoStr
  | [] => []
  | [t] => t.marshal
  | t :: rest => t.marshal ++ [','] ++ marshalTransports rest

/-- Go `HeaderLine.Marshal`: one complete header line ending in `\r\n`.
`GenericHeaderLine.Marshal` emits `name: value\r\n`;
`TransportHeaderLine.Marshal` rebuilds the value from its parsed
`Transports` field.  Neither returns a non-nil error in the source, so the
embedding is total. -/
def HeaderLine.marshal : HeaderLine → GoStr
  | .generic n v => n ++ gs ": " ++ v ++ gs "\r\n"
  | .transport n _ ts => n ++ gs ": " ++ marshalTransports ts ++ gs "\r\n"

/-- Go `NewTransportHeaderLine` (src/unnamed/part_003 lines 176-181).
Source bug preserved: the constructor ignores its `transports` argument and
stores `make([]TransportInfo, 0)` — an empty slice — together with an empty
raw value. -/
def NewTransportHeaderLine (_transports : List TransportInfo) : HeaderLine :=
  HeaderLine.transport (gs "Transport") [] []

/-- Parses one semicolon-separated transport spec (the loop body of
`ParseTransportHeaderLine`, src/unnamed/part_003 lines 192-217).  The Go
code indexes `protoParts[1]`, `parts[1]`, `parts[2]` and `ports[1]` without
bounds checks, so a missing field is a runtime panic (`Res.crash`); the two
`strconv.Atoi` errors are discarded, making unparsable ports `0`. -/
def parseTransportSpec (spec : GoStr) : Res TransportInfo := do
  let spec := goTrimSpace spec
  let parts := goSplitChar ';' spec
  let first ← goIndex parts 0
  let protoParts := goSplitChar '/' first
  let protocol ← goIndex protoParts 0
  let profile ← goIndex protoParts 1
  let mode ← goIndex parts 1
  let third ← goIndex parts 2
  let portRange := goTrimPrefix third (gs "client_port=")
  let ports := goSplitChar '-' portRange
  let p0 ← goIndex ports 0
  let p1 ← goIndex ports 1
  Res.ok { protocol := protocol, profile := profile, mode := mode,
           clientPortStart := goAtoiD p0, clientPortEnd := goAtoiD p1 }

/-- The `for _, spec := range transportSpecs` loop of
`ParseTransportHeaderLine`: parse each comma-separated spec in order,
propagating a panic. -/
def parseTransportSpecs : List GoStr → Res (List TransportInfo)
  | [] => Res.ok []
  | spec :: rest => do
    let t ← parseTransportSpec spec
    let ts ← parseTransportSpecs rest
    Res.ok (t :: ts)

/-- Go `ParseTransportHeaderLine` (src/unnamed/part_003 lines 183-223). -/
def ParseTransportHeaderLine (ln : GoStr) : Res HeaderLine := do
  let valueStr := goTrimPrefix ln (gs "Transport: ")
  let valueStr := goTrim valueStr (gs " \r\n")
  let transportSpecs := goSplitChar ',' valueStr
  let transports ← parseTransportSpecs transportSpecs
  Res.ok (HeaderLine.transport (gs "Transport") valueStr transports)

/-- Go `ParseHeaderLine` (src/unnamed/part_003 lines 246-271). -/
def ParseHeaderLine (line0 : GoStr) : Res HeaderLine := do
  let line := goTrim line0 (gs "\r\n ")
  if ¬ goContainsTwo ':' ' ' line then Res.fail .headerNotKV
  else
    let sp := goSplitTwoN2 ':' ' ' line
    let name ← goIndex sp 0
    let val ← goIndex sp 1
    if name = [] ∨ val = [] then Res.fail .emptyNameOrValue
    else if name = gs "Transport" then ParseTransportHeaderLine line
    else Res.ok (HeaderLine.generic name val)

/-- `Headers` is Go's `map[string]HeaderLine`, embedded as a list with
replace-in-place assignment so each name is bound at most once. -/
abbrev Headers := List HeaderLine

/-- Go map assignment `h[hl.Name()] = hl` (`Headers.PutLine`,
src/unnamed/part_003 lines 135-137). -/
def Headers.putLine (h : Headers) (hl : HeaderLine) : Headers :=
  if h.any (fun x => x.name = hl.name) then
    h.map (fun x => if x.name = hl.name then hl else x)
  else h ++ [hl]

/-- Go `Headers.PutGenericLine`. -/
def Headers.putGenericLine (h : Headers) (name value : GoStr) : Headers :=
  h.putLine (HeaderLine.generic name value)

/-- Go `Headers.GetLine`: map lookup. -/
def Headers.getLine (h : Headers) (name : GoStr) : Option HeaderLine :=
  h.find? (fun x => x.name = name)

/-- Go `Headers.Delete`. -/
def Headers.del (h : Headers) (name : GoStr) : Headers :=
  h.filter (fun x => ¬ x.name = name)

/-- The per-line loop of `NewHeadersFromString`: parse each line, abort on
the first parse error, insert into the map otherwise. -/
def buildHeaders : List GoStr → Headers → Res Headers
  | [], acc => Res.ok acc
  | ln :: rest, acc => do
    let hl ← ParseHeaderLine ln
    buildHeaders rest (acc.putLine hl)

/-- Go `NewHeadersFromString` (src/unnamed/part_003 lines 101-117): trim
outer `\r\n`, split on `\r\n`, parse and insert each line. -/
def NewHeadersFromString (s : GoStr) : Res Headers :=
  buildHeaders (goSplitTwo '\r' '\n' (goTrim s (gs "\r\n"))) []

/-- Go `Headers.Marshal` (src/unnamed/part_003 lines 119-133): concatenate
the marshalled lines of every entry (total, as each line marshal is). -/
def Headers.marshal (h : Headers) : GoStr :=
  (h.map HeaderLine.marshal).flatten

/-! ## Messages, requests, responses (src/unnamed/part_005) -/

/-- Go `strings.Index(s, "\r\n\r\n")`. -/
def goIndexCrlfCrlf : GoStr → Option Nat
  | '\r' :: '\n' :: '\r' :: '\n' :: _ => some 0
  | [] => none
  | _ :: rest => (goIndexCrlfCrlf rest).map (· + 1)

/-- The RTSP status space is Go's `RTSPStatus string` type
(src/rtsp/status.go); only the codes reachable from the embedded handlers
are given names here. -/
def statusOK : GoStr := gs "200"

def statusBadRequest : GoStr := gs "400"

def statusNotFound : GoStr := gs "404"

def statusMethodNotAllowed : GoStr := gs "405"

def statusSessionNotFound : GoStr := gs "454"

def statusMethodNotValidInThisState : GoStr := gs "455"

def statusInternalServerError : GoStr := gs "500"

/-- The `statusText` map of src/rtsp/status.go restricted to the statuses
the embedded handlers can produce; a missing key yields Go's zero string. -/
def statusTextOf (c : GoStr) : GoStr :=
  if c = statusOK then gs "OK"
  else if c = statusBadRequest then gs "Bad Request"
  else if c = statusNotFound then gs "Not Found"
  else if c = statusMethodNotAllowed then gs "Method Not Allowed"
  else if c = statusSessionNotFound then gs "Session Not Found"
  else if c = statusMethodNotValidInThisState then gs "Method Not Valid in This State"
  else if c = statusInternalServerError then gs "Internal Server Error"
  else []

structure Message where
  headers : Headers
  body : GoStr
  deriving DecidableEq, Repr

/-- The zero value of `Message` (nil headers map, nil body). -/
def Message.zero : Message := ⟨[], []⟩

/-- Go `NewMessageFromString` (src/unnamed/part_005 lines 23-55). -/
def NewMessageFromString (s : GoStr) : Res Message :=
  if s.length = 0 then Res.ok Message.zero
  else
    match goIndexCrlfCrlf s with
    | none => Res.fail .invalidFormat
    | some p => do
      let bodyStart := p + 4
      let headers ← NewHeadersFromString (s.take p)
      let body := if bodyStart < s.length then s.drop bodyStart else []
      Res.ok ⟨headers, body⟩

/-- Go `Message.Marshal` (src/unnamed/part_005 lines 57-64): headers, a
blank line, then the body (total: header marshalling never errors). -/
def Message.marshal (m : Message) : GoStr :=
  m.headers.marshal ++ gs "\r\n" ++ m.body

/-- A Go `*url.URL` as the sources use it: the original text and the
extracted `Path`.  `pathOf` models `net/url.Parse` for the URI shapes that
occur here (`scheme://host/seg/seg`, no query or fragment): the path is the
suffix starting at the first `/` after the `//` authority marker. -/
structure URLModel where
  raw : GoStr
  path : GoStr
  deriving DecidableEq, Repr

def urlPathOf (s : GoStr) : GoStr :=
  match goIndexTwo '/' '/' s with
  | none => s
  | some i =>
    let afterAuth := s.drop (i + 2)
    match afterAuth.findIdx? (· = '/') with
    | none => []
    | some j => afterAuth.drop j

/-- Go `url.Parse` as exercised by the sources: never fails on the URIs the
claims involve, `URL.String()` returns the original text. -/
def urlParse (s : GoStr) : Res URLModel :=
  Res.ok ⟨s, urlPathOf s⟩

structure Request where
  method : RTSPMethod
  url : URLModel
  version : GoStr
  message : Message
  deriving DecidableEq, Repr

/-- Go `NewRequest` (src/unnamed/part_005 lines 91-99): request line fields
set, `Message` left at its zero value. -/
def NewRequest (method : RTSPMethod) (url : URLModel) : Request :=
  ⟨method, url, gs "RTSP/1.0", Message.zero⟩

/-- Go `Request.Marshal` (src/unnamed/part_005 lines 77-89).  Source bug
preserved: the result of `fmt.Appendf(buf, "%s %s %s\r\n", …)` is
discarded, so the request line is never appended to `buf` and the
marshalled request consists of the message part only. -/
def Request.marshal (r : Request) : GoStr :=
  let buf : GoStr := []
  let _discardedRequestLine : GoStr :=
    r.method.token ++ [' '] ++ r.url.raw ++ [' '] ++ r.version ++ gs "\r\n"
  buf ++ r.message.marshal

/-- Go `newRequestFromString` (src/unnamed/part_005 lines 101-138).  When
the input has no `\r\n` at all, `strings.Index` returns `-1` and the slice
expression `s[0:-1]` panics; an invalid method token or a version other
than `RTSP/1.0` returns `ErrBadRequest`; a request line with fewer than two
spaces panics at `requestLineParts[1]` / `[2]`. -/
def newRequestFromString (s : GoStr) : Res Request :=
  match goIndexTwo '\r' '\n' s with
  | none => Res.crash
  | some pos => do
    let headerStart := pos + 2
    let requestLineParts := goSplitNChar ' ' 3 (s.take pos)
    let tok ← goIndex requestLineParts 0
    match methodOfToken tok with
    | none => Res.fail .badRequest
    | some method => do
      let uri ← goIndex requestLineParts 1
      let url ← urlParse uri
      let version ← goIndex requestLineParts 2
      if version ≠ gs "RTSP/1.0" then Res.fail .badRequest
      else do
        let msg ←
          if headerStart < s.length then NewMessageFromString (s.drop headerStart)
          else Res.ok Message.zero
        Res.ok { NewRequest method url with message := msg }

structure Response where
  version : GoStr
  statusCode : GoStr
  statusText : GoStr
  message : Message
  deriving DecidableEq, Repr

/-- Go `newResponse` (src/unnamed/part_005 lines 167-175). -/
def newResponse (statusCode : GoStr) : Response :=
  ⟨gs "RTSP/1.0", statusCode, statusTextOf statusCode, Message.zero⟩

/-- Go `Response.writeHeader`. -/
def Response.writeHeader (r : Response) (c : GoStr) : Response :=
  { r with statusCode := c, statusText := statusTextOf c }

/-- Go `Response.marshal` (total: the message marshal never errors). -/
def Response.marshalBytes (r : Response) : GoStr :=
  r.version ++ [' '] ++ r.statusCode ++ [' '] ++ r.statusText ++ gs "\r\n" ++ r.message.marshal

/-! ## RTSP server: sessions, middleware chain, handlers, connection loop

Embeds src/rtsp/server.go together with the `Session` variant it compiles
against (`src/unnamed/part_004`: a session owns one optional
`*StreamState`).  A `Handler` returns `none` for a Go runtime panic.
Randomness and the RTP side are threaded through `ServerState`:
`freshStreamUID` is the value the next `newStreamUID()` would produce, and
`rtpSetupFails` abstracts whether `RTPServer.SetupStream` returns an error
(duplicate stream UID or unresolvable client address, src/rtp/rtp.go). -/

/-- Go `StreamState` (src/unnamed/part_002 lines 56-59). -/
structure StreamState where
  stateNow : TrackState
  streamUID : GoStr
  deriving DecidableEq, Repr

/-- Go `Session` (src/unnamed/part_004 lines 24-30): `stream` is the
`*StreamState` pointer, `none` when nil. -/
structure GoSession where
  uid : GoStr
  stream : Option StreamState
  deriving DecidableEq, Repr

structure ServerState where
  sessions : List (GoStr × GoSession)
  manifest : List GoStr
  rtpSetupFails : Bool
  freshStreamUID : GoStr
  deriving DecidableEq, Repr

/-- Go `sessionManager.get`. -/
def ServerState.getSession (st : ServerState) (uid : GoStr) : Option GoSession :=
  (st.sessions.find? (fun p => p.1 = uid)).map Prod.snd

/-- Pointer semantics of a `*Session`: writing through `ctx.session` also
updates the registry's entry for the same UID. -/
def ServerState.storeSession (st : ServerState) (sess : GoSession) : ServerState :=
  { st with sessions := st.sessions.map (fun p => if p.1 = sess.uid then (p.1, sess) else p) }

/-- Go `sessionManager.delete`. -/
def ServerState.deleteSession (st : ServerState) (uid : GoStr) : ServerState :=
  { st with sessions := st.sessions.filter (fun p => ¬ p.1 = uid) }

/-- Go `requestContext` (src/unnamed/part_005 lines 140-145); the remote
address plays no role in the claims and is omitted. -/
structure ReqCtx where
  request : Request
  response : Response
  session : Option GoSession
  deriving DecidableEq, Repr

/-- A request handler; `none` is a Go runtime panic. -/
abbrev Handler := ServerState → ReqCtx → Option (ServerState × ReqCtx)

/-- Go `Middleware.serveRTSP` (src/rtsp/server.go lines 73-79): run the
middleware, then the next handler only while the response status is `200`. -/
def withMiddleware (mw next : Handler) : Handler := fun st ctx =>
  match mw st ctx with
  | none => none
  | some (st2, ctx2) =>
    if ctx2.response.statusCode = statusOK then next st2 ctx2 else some (st2, ctx2)

/-- Sets the response status inside a context. -/
def ReqCtx.writeHeader (ctx : ReqCtx) (c : GoStr) : ReqCtx :=
  { ctx with response := ctx.response.writeHeader c }

/-- Puts a generic header line on the response. -/
def ReqCtx.putRespGeneric (ctx : ReqCtx) (name value : GoStr) : ReqCtx :=
  { ctx with response :=
      { ctx.response with message :=
          { ctx.response.message with headers := ctx.response.message.headers.putGenericLine name value } } }

/-- Puts an arbitrary header line on the response. -/
def ReqCtx.putRespLine (ctx : ReqCtx) (hl : HeaderLine) : ReqCtx :=
  { ctx with response :=
      { ctx.response with message :=
          { ctx.response.message with headers := ctx.response.message.headers.putLine hl } } }

/-- Go `handleMirrorCSeqHeader` (src/rtsp/server.go lines 85-100): require
a `CSeq` header that parses as an integer, mirror it onto the response,
else 400. -/
def handleMirrorCSeqHeader : Handler := fun st ctx =>
  match ctx.request.message.headers.getLine (gs "CSeq") with
  | none => some (st, ctx.writeHeader statusBadRequest)
  | some cseq =>
    match goAtoi cseq.valueNoError with
    | none => some (st, ctx.writeHeader statusBadRequest)
    | some _ => some (st, ctx.putRespGeneric (gs "CSeq") cseq.valueNoError)

/-- Go `handleSettingContextSession` (src/rtsp/server.go lines 304-326).
For a SETUP or OPTIONS request without a `Session` header, neither guard
fires and the Go code calls `sessionHeader.ValueNoError()` on a nil
interface value — a runtime panic (`none`). -/
def handleSettingContextSession : Handler := fun st ctx =>
  let sh := ctx.request.message.headers.getLine (gs "Session")
  if sh.isNone ∧ ctx.request.method ≠ .SETUP ∧ ctx.request.method ≠ .OPTIONS then
    some (st, ctx.writeHeader statusSessionNotFound)
  else if sh.isSome ∧ ctx.request.method = .SETUP then
    some (st, ctx.writeHeader statusMethodNotValidInThisState)
  else
    match sh with
    | none => none
    | some line =>
      let sessionUID := line.valueNoError
      match st.getSession sessionUID with
      | none => some (st, ctx.writeHeader statusSessionNotFound)
      | some sess => some (st, { ctx with session := some sess })

/-- Go `handleSetup` (src/rtsp/server.go lines 187-259).  Notable source
behaviours preserved: `ctx.session.Stream = NewStreamState()` dereferences
the nil session pointer when no session was resolved (panic);
`NewTransportHeaderLine` drops the chosen transport; `SetupStream` returns
`AcceptableTransports[0]` (src/rtp/rtp.go line 104). -/
def handleSetup : Handler := fun st ctx =>
  let path := goTrim ctx.request.url.path (gs "/ ")
  let segments := goSplitChar '/' path
  if segments.length ≠ 2 then some (st, ctx.writeHeader statusNotFound)
  else
    match segments with
    | [seg0, mediaUID] =>
      if seg0 ≠ gs "media" then some (st, ctx.writeHeader statusMethodNotAllowed)
      else if ¬ st.manifest.contains mediaUID then some (st, ctx.writeHeader statusNotFound)
      else
        match ctx.session with
        | none => none
        | some sess0 =>
          let newStream : StreamState := ⟨.Init, st.freshStreamUID⟩
          let sess := { sess0 with stream := some newStream }
          let st := st.storeSession sess
          let ctx := { ctx with session := some sess }
          if newStream.stateNow ≠ .Init then some (st, ctx.writeHeader statusMethodNotValidInThisState)
          else
            match ctx.request.message.headers.getLine (gs "Transport") with
            | none => some (st, ctx.writeHeader statusBadRequest)
            | some (.generic _ _) => some (st, ctx.writeHeader statusInternalServerError)
            | some (.transport _ _ transports) =>
              match transports with
              | [] => some (st, ctx.writeHeader statusBadRequest)
              | chosen :: _ =>
                if st.rtpSetupFails then some (st, ctx.writeHeader statusInternalServerError)
                else
                  let ctx := ctx.putRespGeneric (gs "Session") sess.uid
                  let ctx := ctx.putRespLine (NewTransportHeaderLine [chosen])
                  let setupStream : StreamState :=
                    { newStream with stateNow := newStream.stateNow.After .SETUP }
                  let sess := { sess with stream := some setupStream }
                  let st := st.storeSession sess
                  let ctx := { ctx with session := some sess }
                  some (st, ctx)
    | _ => none

/-- Go `handleTeardown` (src/rtsp/server.go lines 261-296). -/
def handleTeardown : Handler := fun st ctx =>
  let path := goTrim ctx.request.url.path (gs "/ ")
  let segments := goSplitChar '/' path
  if segments.length ≠ 2 then some (st, ctx.writeHeader statusNotFound)
  else
    match segments with
    | [seg0, _mediaUID] =>
      if seg0 ≠ gs "media" then some (st, ctx.writeHeader statusMethodNotAllowed)
      else
        match ctx.session with
        | none => none
        | some sess0 =>
          match sess0.stream with
          | none => some (st, ctx.writeHeader statusNotFound)
          | some stm =>
            if stm.stateNow.After .TEARDOWN = .ErrorState then
              some (st, ctx.writeHeader statusMethodNotValidInThisState)
            else
              let stm2 : StreamState := ⟨stm.stateNow.After .TEARDOWN, []⟩
              let sess := { sess0 with stream := some stm2 }
              let st := (st.storeSession sess).deleteSession sess.uid
              some (st, { ctx with session := some sess })
    | _ => none

/-- Go `handlePlay` / `handlePause` / `handleOptions`
(src/rtsp/server.go lines 298-302): empty stubs. -/
def handleStub : Handler := fun st ctx => some (st, ctx)

/-- The method mux of `NewRTSPServer` (src/rtsp/server.go lines 133-138 and
34-43): five registered methods, anything else answers 405. -/
def muxHandler : Handler := fun st ctx =>
  match ctx.request.method with
  | .SETUP => handleSetup st ctx
  | .TEARDOWN => handleTeardown st ctx
  | .PLAY => handleStub st ctx
  | .PAUSE => handleStub st ctx
  | .OPTIONS => handleStub st ctx
  | _ => some (st, ctx.writeHeader statusMethodNotAllowed)

/-- The complete handler chain built in `NewRTSPServer` (src/rtsp/server.go
lines 140-143).  Note that line 141 (`s.handler = mux`) overwrites line 140
(`s.handler = HandlerFunc(handleSettingFinalHeaders)`), so the
final-headers handler is not part of the chain the source installs. -/
def theHandler : Handler :=
  withMiddleware handleMirrorCSeqHeader (withMiddleware handleSettingContextSession muxHandler)

/-- Splits a byte stream into the segments that successive
`bufio.Reader.ReadString('\n')` calls return: each segment ends with
`'\n'` except possibly the last (which Go returns together with an EOF
error). -/
def goLinesNL : GoStr → List GoStr
  | [] => []
  | x :: xs =>
    if x = '\n' then ['\n'] :: goLinesNL xs
    else
      match goLinesNL xs with
      | [] => [[x]]
      | l :: ls => (x :: l) :: ls

/-- The header-reading loop of `readRequest` (src/rtsp/server.go lines
330-344): accumulate lines until a bare `\r\n` line; a read error before
that (EOF: a segment without `'\n'`, or no segment left) aborts. -/
def readHeadFrom : List GoStr → Option (GoStr × List GoStr)
  | [] => none
  | line :: rest =>
    if ¬ line.contains '\n' then none
    else if line = gs "\r\n" then some (line, rest)
    else (readHeadFrom rest).map (fun p => (line ++ p.1, p.2))

/-- Go `readRequest` (src/rtsp/server.go lines 328-368): read the head up
to the blank line, parse it, then read `Content-Length` bytes of body. -/
def readRequest (input : GoStr) : Res Request :=
  match readHeadFrom (goLinesNL input) with
  | none => Res.fail .ioError
  | some (raw, restLines) => do
    let request ← newRequestFromString raw
    match request.message.headers.getLine (gs "Content-Length") with
    | none => Res.ok request
    | some cl =>
      match goAtoi cl.valueNoError with
      | none => Res.fail .atoiError
      | some n =>
        let rest := restLines.flatten
        if (n.toNat : Nat) ≤ rest.length then
          Res.ok { request with message := { request.message with body := rest.take n.toNat } }
        else Res.fail .ioError

/-- What `serveConnection` (src/rtsp/server.go lines 370-414) does with one
connection: write a marshalled response, close without writing anything
(`resp` never set after a read error), or die with a runtime panic. -/
inductive ServeOutcome where
  | wrote (r : Response)
  | droppedNoResponse
  | crashed
  deriving DecidableEq, Repr

/-- Go `serveConnection`: read one request, run the handler chain, write
the response.  `Response.marshalBytes` is total, so the marshal-error
fallback branch of the source is unreachable. -/
def serveConn (st : ServerState) (input : GoStr) : ServeOutcome :=
  match readRequest input with
  | .fail _ => .droppedNoResponse
  | .crash => .crashed
  | .ok req =>
    match theHandler st ⟨req, newResponse statusOK, none⟩ with
    | none => .crashed
    | some (_, ctx2) => .wrote ctx2.response

/-- Whether an outcome wrote a response at all. -/
def ServeOutcome.isWrote : ServeOutcome → Bool
  | .wrote _ => true
  | _ => false

/-- Whether an outcome wrote a response with the given status code. -/
def ServeOutcome.wroteStatus (o : ServeOutcome) (c : GoStr) : Bool :=
  match o with
  | .wrote r => r.statusCode = c
  | _ => false

/-! ## RTP server (src/rtp/rtp.go; src/unnamed/part_000 is the same code
modulo the track-info fields)

The claims about this component concern `Interrupt`: the `sync.Once` guard
is a boolean, the 1-buffered `interruptCause` channel is the list of values
sent on it, and each stream records whether its two channels were closed.
`tornDownStreams` is a ghost log of the streams whose `teardown()` ran. -/

/-- An opaque Go `error` value. -/
abbrev ErrVal := GoStr

/-- Go `Stream` (src/rtp/rtp.go lines 15-22), reduced to the fields the
claims observe: identity plus the closed state of its two channels. -/
structure RtpStream where
  id : GoStr
  stopClosed : Bool
  packetsOutClosed : Bool
  deriving DecidableEq, Repr

/-- Go `Stream.teardown` (src/rtp/rtp.go lines 24-27): closes `packetsOut`
and `stop`. -/
def RtpStream.teardownChans (s : RtpStream) : RtpStream :=
  { s with stopClosed := true, packetsOutClosed := true }

structure RtpServer where
  streams : List (GoStr × RtpStream)
  tornDownStreams : List RtpStream
  interruptDone : Bool
  interruptCause : List ErrVal
  deriving DecidableEq, Repr

/-- Go `NewServer` (src/rtp/rtp.go lines 38-43). -/
def RtpServer.new : RtpServer := ⟨[], [], false, []⟩

/-- Go `Server.teardownStream` (src/rtp/rtp.go lines 120-127): run the
stream's channel teardown, then delete its map entry. -/
def RtpServer.teardownStream (srv : RtpServer) (stream : RtpStream) : RtpServer :=
  { srv with
    streams := srv.streams.filter (fun p => ¬ p.1 = stream.id),
    tornDownStreams := srv.tornDownStreams ++ [stream.teardownChans] }

/-- Go `Server.TeardownStream` (src/rtp/rtp.go lines 131-139): no-op for an
unknown UID. -/
def RtpServer.teardownStreamByUID (srv : RtpServer) (uid : GoStr) : RtpServer :=
  match srv.streams.find? (fun p => p.1 = uid) with
  | none => srv
  | some p => srv.teardownStream p.2

/-- Go `Server.Interrupt` (src/rtp/rtp.go lines 75-85): under the
`sync.Once` guard, tear down every stream in the map, then send the cause
on the 1-buffered `interruptCause` channel. -/
def RtpServer.interrupt (srv : RtpServer) (cause : ErrVal) : RtpServer :=
  if srv.interruptDone then srv
  else
    let srv2 := srv.streams.foldl (fun acc p => acc.teardownStream p.2) srv
    { srv2 with
      interruptCause := srv2.interruptCause ++ [cause],
      interruptDone := true }

end Picast

namespace Picast
namespace BPipes

/-! ## Backpressured pipeline (src/util/bpipes/bpipes.go)

Two complementary embeddings of the same source, at two granularities:

* a **trace model** of the two goroutine bodies `runPreStage` and
  `runStageI`, parameterised by the schedule of events each goroutine
  observes (what each blocking receive / context poll yielded), recording
  every channel operation, effect invocation and teardown the code
  performs — this settles the once-only / ordering invariants for every
  schedule;
* a **dataflow model** `pipelineSim` of the per-channel contents for
  concrete runs, used for the end-to-end error-counting scenario.

Items are `Nat`s.  Channel identities: `Chan.inter 0` is `nextInput` (the
pre-stage's output), `Chan.inter (i+1)` is the output channel created for
stage `i`; for `n` stages the tail is `Chan.inter n`. -/

/-- Result of one `plStage.Effect` call: nil, a non-cancellation error, or
an error for which `errors.Is(err, context.Canceled)` holds. -/
inductive EffRes where
  | ok | err | cancelErr
  deriving DecidableEq, Repr

/-- One loop iteration's observation in `runStageI`: the `select` saw the
context done, or the receive from `prev` yielded closed / an item (paired
with what `Effect` then returned). -/
inductive StageEv where
  | ctxDone
  | recvClosed
  | recvItem (x : Nat) (e : EffRes)
  deriving DecidableEq, Repr

/-- One loop iteration's observation in `runPreStage`. -/
inductive PreEv where
  | ctxDone
  | headClosed
  | headItem (x : Nat)
  deriving DecidableEq, Repr

inductive Chan where
  | head
  | inter (i : Nat)
  deriving DecidableEq, Repr

/-- The observable operations the goroutine bodies perform. -/
inductive Action where
  | recvFrom (c : Chan)
  | runEffect (x : Nat) (e : EffRes)
  | sendTo (c : Chan) (x : Nat)
  | sendErrCh
  | closeCh (c : Chan)
  | teardown (i : Nat)
  | sinkRecv (c : Chan)
  | cancelStages
  deriving DecidableEq, Repr

/-- Result of running one goroutine body against a schedule. -/
structure StageRun where
  trace : List Action
  exited : Bool
  finished : Bool
  deriving DecidableEq, Repr

/-- The `pumpData` loop of `runStageI` (bpipes.go lines 182-215): returns
the actions performed, and — when the loop was left via one of its three
exits — the `enterSinkMode` flag and the unconsumed schedule.  `none`
means the goroutine is still blocked inside the loop. -/
def stagePump (i : Nat) : List StageEv → List Action × Option (Bool × List StageEv)
  | [] => ([], none)
  | .ctxDone :: rest => ([], some (true, rest))
  | .recvClosed :: rest => ([.recvFrom (.inter i)], some (false, rest))
  | .recvItem x e :: rest =>
    match e with
    | .ok =>
      let (as, r) := stagePump i rest
      (.recvFrom (.inter i) :: .runEffect x .ok :: .sendTo (.inter (i + 1)) x :: as, r)
    | .err =>
      ([.recvFrom (.inter i), .runEffect x .err, .sendErrCh], some (true, rest))
    | .cancelErr =>
      ([.recvFrom (.inter i), .runEffect x .cancelErr], some (true, rest))

/-- The sink loop of `runStageI` (bpipes.go lines 227-232): discard
received items until the upstream channel closes.  (The sink loop never
polls the context, so a `ctxDone` event is invisible to it.) -/
def sinkLoop (i : Nat) : List StageEv → List Action × Bool
  | [] => ([], false)
  | .recvClosed :: _ => ([.recvFrom (.inter i)], true)
  | .ctxDone :: rest => sinkLoop i rest
  | .recvItem _ _ :: rest =>
    let (as, fin) := sinkLoop i rest
    (.sinkRecv (.inter i) :: as, fin)

/-- Go `runStageI` for stage `i` (bpipes.go lines 166-234).  After the
`pumpData` loop is left, the source closes `next`, runs `Teardown`, sets
both once-guards, and — only in sink mode — drains the upstream; the
deferred close/teardown are then no-ops by those guards. -/
def runStageGo (i : Nat) (sched : List StageEv) : StageRun :=
  match stagePump i sched with
  | (as, none) => ⟨as, false, false⟩
  | (as, some (enterSink, rest)) =>
    let epilogue := [Action.closeCh (.inter (i + 1)), Action.teardown i]
    if enterSink then
      let (ss, fin) := sinkLoop i rest
      ⟨as ++ epilogue ++ ss, true, fin⟩
    else ⟨as ++ epilogue, true, true⟩

/-- Go `runPreStage` (bpipes.go lines 137-164): forward head items into
`nextInput` (= `inter 0`); on a context-done poll, report on the error
channel and return; on head closure, cancel the stage context, report on
the error channel and return.  The deferred `close(next)` closes `inter 0`
on every return path; the head channel itself is only ever received from. -/
def runPreStageGo : List PreEv → StageRun
  | [] => ⟨[], false, false⟩
  | .ctxDone :: _ => ⟨[.sendErrCh, .closeCh (.inter 0)], true, true⟩
  | .headClosed :: _ => ⟨[.recvFrom .head, .cancelStages, .sendErrCh, .closeCh (.inter 0)], true, true⟩
  | .headItem x :: rest =>
    let r := runPreStageGo rest
    ⟨.recvFrom .head :: .sendTo (.inter 0) x :: r.trace, r.exited, r.finished⟩

/-- The traces of all goroutines of an `n`-stage pipeline
(`NewPipeline`, bpipes.go lines 254-285): one pre-stage and stages
`0 … n-1`, each against its own schedule. -/
def pipelineTraces (n : Nat) (preSched : List PreEv) (scheds : Nat → List StageEv) :
    List (List Action) :=
  (runPreStageGo preSched).trace :: (List.range n).map (fun i => (runStageGo i (scheds i)).trace)

/-- All actions of all goroutines of a pipeline run (order across
goroutines is irrelevant to the counting invariants). -/
def pipelineActions (n : Nat) (preSched : List PreEv) (scheds : Nat → List StageEv) :
    List Action :=
  (pipelineTraces n preSched scheds).flatten

/-- The error-channel capacity chosen by `NewPipeline` (bpipes.go line
256): `1 + len(stages)`. -/
def errChanCap (n : Nat) : Nat := 1 + n

/-- Dataflow view of one stage (`runStageI`) for a run in which the
upstream delivers `inp` and then closes: the stage forwards each item whose
effect succeeds, and stops at the first effect error — sending one value on
the error channel unless the error is a cancellation — after which it only
sinks.  Returns the forwarded items and the number of error-channel sends. -/
def stageFlow (eff : Nat → EffRes) : List Nat → List Nat × Nat
  | [] => ([], 0)
  | x :: rest =>
    match eff x with
    | .ok =>
      let (ys, e) := stageFlow eff rest
      (x :: ys, e)
    | .err => ([], 1)
    | .cancelErr => ([], 0)

/-- Dataflow view of a whole pipeline run in which the caller feeds
`headItems` and then closes the head: the pre-stage forwards every item and
then — observing head closure — cancels the stage context and sends
`ErrPipelineClosing∥ErrHeadClosed` on the error channel (bpipes.go lines
155-159), which accounts for the initial error count of 1.  Returns the
tail contents and the total number of values sent on the error channel. -/
def pipelineSim (effs : List (Nat → EffRes)) (headItems : List Nat) : List Nat × Nat :=
  effs.foldl
    (fun acc eff =>
      let (out, e) := stageFlow eff acc.1
      (out, acc.2 + e))
    (headItems, 1)

end BPipes
end Picast

namespace Picast

/-! ## Claim-side definitions

Definitions in this section transcribe the **specification's wording** (not
the source), for comparison against the source-side definitions above, plus
the concrete inputs the claims are settled at. -/

/-- The state table exactly as claim C2 words it: the listed entries, with
`none` for a pair the table does not list. -/
def specTableC2 : TrackState → RTSPMethod → Option TrackState
  | .Init, .SETUP => some .Ready
  | .Init, .TEARDOWN => some .Init
  | .Ready, .SETUP => some .Ready
  | .Ready, .PLAY => some .Playing
  | .Ready, .RECORD => some .Recording
  | .Ready, .TEARDOWN => some .Init
  | .Playing, .SETUP => some .Playing
  | .Playing, .PLAY => some .Playing
  | .Playing, .PAUSE => some .Ready
  | .Playing, .TEARDOWN => some .Init
  | .Recording, .SETUP => some .Recording
  | .Recording, .RECORD => some .Recording
  | .Recording, .PAUSE => some .Ready
  | .Recording, .TEARDOWN => some .Init
  | _, _ => none

/-- Claim C2's transition function: the listed entry, and `Error` for every
pair the table does not list. -/
def specAfterC2 (s : TrackState) (m : RTSPMethod) : TrackState :=
  (specTableC2 s m).getD .ErrorState

/-- The pairwise reduction rule of claim C3 as **amended**: `(Init,X)` is
`Init` when `X ∈ {Init, Ready}` and `Error` otherwise; `(Ready,Ready)` is
`Ready`; **`(Ready,Init)` is `Init`** (the amendment — the claim said all
mixed pairs other than those listed are `Error`); `(Playing,Playing)` is
`Playing`; `(Recording,Recording)` is `Recording`; every other pair is
`Error`. -/
def amendedPairC3 : TrackState → TrackState → TrackState
  | .Init, .Init => .Init
  | .Init, .Ready => .Init
  | .Ready, .Init => .Init
  | .Ready, .Ready => .Ready
  | .Playing, .Playing => .Playing
  | .Recording, .Recording => .Recording
  | _, _ => .ErrorState

/-- The aggregate reduction of claim C3 (amended only in its pair rule):
`Init` for the empty list, the element itself for a singleton, `Error` if
any element is `Error`, and otherwise the pairwise left fold. -/
def amendedAggregateC3 (l : List TrackState) : TrackState :=
  match l with
  | [] => .Init
  | [s] => s
  | s :: rest =>
    if (s :: rest).contains .ErrorState then .ErrorState
    else rest.foldl amendedPairC3 s

/-- The sequence of header lines of an input, in input order with
duplicates retained (the claim-side view against which the map's
last-occurrence-wins behaviour is stated). -/
def parseHeaderLines : List GoStr → Res (List HeaderLine)
  | [] => Res.ok []
  | ln :: rest => do
    let hl ← ParseHeaderLine ln
    let tl ← parseHeaderLines rest
    Res.ok (hl :: tl)

/-- The header lines of a headers-section string, claim-side view. -/
def headerLinesOf (s : GoStr) : Res (List HeaderLine) :=
  parseHeaderLines (goSplitTwo '\r' '\n' (goTrim s (gs "\r\n")))

/-- A server whose manifest contains media UID `abc`, with no session
registered, the RTP server able to set up streams, and a fresh stream UID
available — the server state of the spec's first end-to-end scenario. -/
def c1Server : ServerState := ⟨[], [gs "abc"], false, gs "strm0001"⟩

/-- The spec's literal SETUP scenario request: integer CSeq, one valid
transport, no Session header, media UID present in the manifest. -/
def c1Input : GoStr :=
  gs "SETUP rtsp://h/media/abc RTSP/1.0\r\nCSeq: 1\r\nTransport: RTP/AVP;unicast;client_port=5000-5001\r\n\r\n"

/-- A request whose method token `FOO` is not one of the eleven RFC 2326
methods. -/
def c4BadMethodInput : GoStr := gs "FOO rtsp://h/x RTSP/1.0\r\nCSeq: 1\r\n\r\n"

/-- A SETUP request whose Transport header value `RTP` is missing the
PROTOCOL/PROFILE slash, the mode field and the client_port field. -/
def c4BadTransportInput : GoStr :=
  gs "SETUP rtsp://h/media/abc RTSP/1.0\r\nCSeq: 1\r\nTransport: RTP\r\n\r\n"

/-- A well-formed request: SETUP on a valid URI, version RTSP/1.0, one
`CSeq: 1` header in `Name: Value` form, empty body. -/
def c5Request : Request :=
  { NewRequest .SETUP ⟨gs "rtsp://h/media/abc", gs "/media/abc"⟩ with
    message := ⟨[HeaderLine.generic (gs "CSeq") (gs "1")], []⟩ }

/-- A registered session in state Ready, for dispatching PLAY and PAUSE. -/
def c8Session : GoSession := ⟨gs "ABCDEFGH12345678", some ⟨.Ready, gs "strm0001"⟩⟩

/-- A server with `c8Session` registered and media UID `abc` present. -/
def c8Server : ServerState := ⟨[(gs "ABCDEFGH12345678", c8Session)], [gs "abc"], false, gs "strm0002"⟩

/-- A dispatched PLAY request carrying the registered session's UID. -/
def c8PlayInput : GoStr :=
  gs "PLAY rtsp://h/media/abc RTSP/1.0\r\nCSeq: 2\r\nSession: ABCDEFGH12345678\r\n\r\n"

/-- A dispatched PAUSE request carrying the registered session's UID. -/
def c8PauseInput : GoStr :=
  gs "PAUSE rtsp://h/media/abc RTSP/1.0\r\nCSeq: 3\r\nSession: ABCDEFGH12345678\r\n\r\n"

/-- A dispatched OPTIONS request with no Session header (the claim says
OPTIONS needs none). -/
def c8OptionsInput : GoStr := gs "OPTIONS rtsp://h/media/abc RTSP/1.0\r\nCSeq: 4\r\n\r\n"

/-- The three stage effects of the claim C7 scenario: stages 1 and 3 always
succeed, stage 2 returns a non-cancellation error on item 3. -/
def c7Effects : List (Nat → BPipes.EffRes) :=
  [fun _ => .ok, fun x => if x = 3 then .err else .ok, fun _ => .ok]

/-- The five items fed to the head before it is closed in the C7 scenario. -/
def c7HeadItems : List Nat := [1, 2, 3, 4, 5]

/-- A headers section with two CSeq lines (claim C10's example of a
duplicated header name). -/
def c10DupInput : GoStr := gs "CSeq: 1\r\nCSeq: 2"

/-- An RTP server with two live streams, not yet interrupted. -/
def c9Server : RtpServer :=
  ⟨[(gs "s1", ⟨gs "s1", false, false⟩), (gs "s2", ⟨gs "s2", false, false⟩)], [], false, []⟩

end Picast





namespace Picast

/-! ## Theorems -/

/-- C2: for every stream state `s` and RTSP method `m`, the transition
function `TrackState.After` yields exactly the claim's state table; every
pair the table does not list yields `ErrorState` (built into
`specAfterC2`'s default), and in particular every method applied in
`ErrorState` yields `ErrorState` again, so the error state is permanent. -/
theorem after_matches_spec_table :
    ∀ (s : TrackState) (m : RTSPMethod),
      TrackState.After s m = specAfterC2 s m ∧
      TrackState.After .ErrorState m = .ErrorState := by
  intro s m
  constructor
  · cases s <;> cases m <;> rfl
  · cases m <;> rfl

/-- C3 counterexample: the claim maps the pair `(Ready, Init)` — a mixed
pair it does not list — to `Error`, but the source's reduction of the
two-element list `[Ready, Init]` is `Init`, not `ErrorState`. -/
theorem aggregate_ready_init_is_init :
    StateFromTrackStreamStates [.Ready, .Init] = .Init ∧
    StateFromTrackStreamStates [.Ready, .Init] ≠ .ErrorState := by
  constructor
  · rfl
  · intro h; cases h

/-- C1: the spec's literal SETUP scenario (manifest contains `abc`, integer
CSeq, one transport, no Session header) does not produce the claimed 200
response with mirrored CSeq, Session and Transport headers: the server
panics, because `handleSettingContextSession` calls `ValueNoError()` on the
nil `Session` header-line interface for every SETUP request that carries no
Session header. -/
theorem setup_scenario_crashes :
    serveConn c1Server c1Input = .crashed ∧
    (serveConn c1Server c1Input).wroteStatus statusOK = false := by
  constructor <;> rfl

/-- C5: round-tripping a well-formed request fails: `Request.Marshal`
discards the `fmt.Appendf` result carrying the request line, so the
marshalled bytes are only `"CSeq: 1\r\n\r\n"`, and parsing them back yields
`ErrBadRequest` instead of the original request. -/
theorem marshal_parse_roundtrip_fails :
    c5Request.marshal = gs "CSeq: 1\r\n\r\n" ∧
    newRequestFromString c5Request.marshal = .fail .badRequest ∧
    newRequestFromString c5Request.marshal ≠ .ok c5Request := by
  refine ⟨rfl, rfl, ?_⟩
  intro h; cases h

/-- C8: dispatched PLAY and PAUSE requests naming a registered session do
reach their stub handlers and answer 200, but a dispatched OPTIONS request
without a Session header — which the claim says needs none — makes the
server panic on the nil Session header-line interface instead of answering
200. -/
theorem play_pause_ok_options_crashes :
    (serveConn c8Server c8PlayInput).wroteStatus statusOK = true ∧
    (serveConn c8Server c8PauseInput).wroteStatus statusOK = true ∧
    serveConn c8Server c8OptionsInput = .crashed := by
  refine ⟨rfl, rfl, rfl⟩

end Picast

namespace Picast

/-- The source's fold step agrees with the amended claim's pair rule on
every pair whose right component is not `ErrorState` (the only pairs the
guarded fold can see). -/
theorem reduceStep_eq_amendedPair (s x : TrackState) (hx : x ≠ .ErrorState) :
    reduceStep s x = amendedPairC3 s x := by
  cases s <;> cases x <;> first | rfl | exact absurd rfl hx

theorem foldl_reduceStep_eq_amended (l : List TrackState) (s : TrackState)
    (hl : TrackState.ErrorState ∉ l) :
    l.foldl reduceStep s = l.foldl amendedPairC3 s := by
  induction l generalizing s with
  | nil => rfl
  | cons x xs ih =>
    have hx : x ≠ .ErrorState := fun h => hl (h ▸ List.mem_cons_self x xs)
    have hxs : TrackState.ErrorState ∉ xs := fun h => hl (List.mem_cons_of_mem x h)
    simp only [List.foldl_cons, reduceStep_eq_amendedPair s x hx, ih _ hxs]

/-- C3 amended: the source's aggregate reduction coincides everywhere with
the claim's reduction amended only in mapping `(Ready, Init)` to `Init`. -/
theorem aggregate_matches_amended_spec :
    ∀ l : List TrackState, StateFromTrackStreamStates l = amendedAggregateC3 l := by
  intro l
  match l with
  | [] => rfl
  | [s] => rfl
  | a :: b :: rest =>
    simp only [StateFromTrackStreamStates, amendedAggregateC3]
    split
    · rfl
    · rename_i h
      apply foldl_reduceStep_eq_amended
      intro hmem
      exact h (List.elem_eq_true_of_mem (List.mem_cons_of_mem a hmem))

end Picast

namespace Picast

/-- The teardown fold of `Interrupt` appends exactly the channel-closed
versions of the iterated streams to the ghost teardown log. -/
theorem interrupt_fold_tornDown (l : List (GoStr × RtpStream)) (acc : RtpServer) :
    (l.foldl (fun a p => a.teardownStream p.2) acc).tornDownStreams
      = acc.tornDownStreams ++ l.map (fun p => p.2.teardownChans) := by
  induction l generalizing acc with
  | nil => simp
  | cons p rest ih =>
    rw [List.foldl_cons, ih]
    simp [RtpServer.teardownStream]

/-- The teardown fold of `Interrupt` touches neither the cause channel nor
the once-guard. -/
theorem interrupt_fold_preserves (l : List (GoStr × RtpStream)) (acc : RtpServer) :
    (l.foldl (fun a p => a.teardownStream p.2) acc).interruptCause = acc.interruptCause ∧
    (l.foldl (fun a p => a.teardownStream p.2) acc).interruptDone = acc.interruptDone := by
  induction l generalizing acc with
  | nil => exact ⟨rfl, rfl⟩
  | cons p rest ih =>
    rw [List.foldl_cons]
    exact (ih (acc.teardownStream p.2))

/-- Folding `teardownStream` over a key set covering every entry of the
stream map empties the map (each step deletes the entries bound to the
stream's id, which equals its key). -/
theorem interrupt_fold_empties (l : List (GoStr × RtpStream)) (acc : RtpServer)
    (hk : ∀ p ∈ l, p.2.id = p.1)
    (hcov : ∀ q ∈ acc.streams, q.1 ∈ l.map Prod.fst) :
    (l.foldl (fun a p => a.teardownStream p.2) acc).streams = [] := by
  induction l generalizing acc with
  | nil =>
    simp only [List.foldl_nil]
    apply List.eq_nil_iff_forall_not_mem.mpr
    intro q hq
    exact absurd (hcov q hq) (by simp)
  | cons p rest ih =>
    simp only [List.foldl_cons]
    apply ih
    · intro q hq; exact hk q (List.mem_cons_of_mem p hq)
    · intro q hq
      simp only [RtpServer.teardownStream, List.mem_filter] at hq
      have hqk : q.1 ∈ (p :: rest).map Prod.fst := hcov q hq.1
      have hne : ¬ q.1 = p.2.id := by simpa using hq.2
      rw [hk p (List.mem_cons_self p rest)] at hne
      simp only [List.map_cons, List.mem_cons] at hqk
      rcases hqk with h1 | h2
      · exact absurd h1 hne
      · exact h2

/-- A server whose once-guard already fired ignores `Interrupt` entirely. -/
theorem interrupt_done_noop (s : RtpServer) (c : ErrVal) (h : s.interruptDone = true) :
    s.interrupt c = s := by
  simp [RtpServer.interrupt, h]

/-- The first `Interrupt` sets the once-guard. -/
theorem interrupt_sets_done (s : RtpServer) (c : ErrVal) (h : s.interruptDone = false) :
    (s.interrupt c).interruptDone = true := by
  simp [RtpServer.interrupt, h]

/-- Two successive `Interrupt` calls are one: the second changes nothing. -/
theorem interrupt_twice (srv : RtpServer) (c c2 : ErrVal) :
    (srv.interrupt c).interrupt c2 = srv.interrupt c := by
  by_cases h : srv.interruptDone = true
  · rw [interrupt_done_noop srv c h]
    exact interrupt_done_noop srv c2 h
  · exact interrupt_done_noop _ c2
      (interrupt_sets_done srv c (Bool.not_eq_true _ ▸ h))

/-- C9: `Interrupt(cause)` is idempotent.  Provided the stream map binds
each key to a stream carrying that id (the invariant `SetupStream`
establishes) and the server has not been interrupted yet, the first call
empties the stream map, closes the `stop` and `packetsOut` channels of
every stream that was live (appending them to the ghost teardown log), and
publishes exactly `cause` on the one-shot cause channel; every subsequent
`Interrupt`, with any cause, returns the state unchanged. -/
theorem rtp_interrupt_idempotent :
    ∀ (srv : RtpServer) (c c2 : ErrVal),
      (∀ p ∈ srv.streams, p.2.id = p.1) →
      srv.interruptDone = false →
      ((srv.interrupt c).streams = [] ∧
       (srv.interrupt c).tornDownStreams
         = srv.tornDownStreams ++ srv.streams.map (fun p => p.2.teardownChans) ∧
       (∀ s ∈ srv.streams.map (fun p => p.2.teardownChans),
          s.stopClosed = true ∧ s.packetsOutClosed = true) ∧
       (srv.interrupt c).interruptCause = srv.interruptCause ++ [c]) ∧
      (srv.interrupt c).interrupt c2 = srv.interrupt c := by
  intro srv c c2 hk hdone
  refine ⟨⟨?_, ?_, ?_, ?_⟩, interrupt_twice srv c c2⟩
  · simp only [RtpServer.interrupt, hdone, Bool.false_eq_true, if_false]
    exact interrupt_fold_empties srv.streams srv hk (fun q hq => List.mem_map_of_mem Prod.fst hq)
  · simp only [RtpServer.interrupt, hdone, Bool.false_eq_true, if_false]
    exact interrupt_fold_tornDown srv.streams srv
  · intro s hs
    rcases List.mem_map.mp hs with ⟨p, _, hps⟩
    exact ⟨by rw [← hps]; rfl, by rw [← hps]; rfl⟩
  · simp only [RtpServer.interrupt, hdone, Bool.false_eq_true, if_false]
    rw [(interrupt_fold_preserves srv.streams srv).1]

/-- Witness for C9 at a concrete two-stream server. -/
theorem rtp_interrupt_idempotent_witness :
    (c9Server.interrupt (gs "cause")).streams = [] ∧
    ((c9Server.interrupt (gs "cause")).interrupt (gs "other")) = c9Server.interrupt (gs "cause") :=
  ⟨((rtp_interrupt_idempotent c9Server (gs "cause") (gs "other")
      (by decide) (by decide)).1).1,
   (rtp_interrupt_idempotent c9Server (gs "cause") (gs "other")
      (by decide) (by decide)).2⟩

end Picast

namespace Picast
namespace BPipes

/-- One stage sends at most one value on the error channel. -/
theorem stageFlow_err_le_one (eff : Nat → EffRes) (l : List Nat) :
    (stageFlow eff l).2 ≤ 1 := by
  induction l with
  | nil => exact Nat.zero_le 1
  | cons x rest ih =>
    simp only [stageFlow]
    cases eff x <;> simp [ih]

/-- The fold of `pipelineSim` adds at most one error per stage to the
running count. -/
theorem pipelineSim_fold_bound (effs : List (Nat → EffRes)) :
    ∀ (items : List Nat) (k : Nat),
      (effs.foldl
        (fun acc eff =>
          let (out, e) := stageFlow eff acc.1
          (out, acc.2 + e))
        (items, k)).2 ≤ k + effs.length := by
  induction effs with
  | nil => intro items k; simp
  | cons eff rest ih =>
    intro items k
    simp only [List.foldl_cons, List.length_cons]
    calc (rest.foldl _ (((stageFlow eff items).1), k + (stageFlow eff items).2)).2
        ≤ (k + (stageFlow eff items).2) + rest.length := ih _ _
      _ ≤ (k + 1) + rest.length := by
          have := stageFlow_err_le_one eff items
          omega
      _ = k + (rest.length + 1) := by omega

/-- C7 counterexample: in the claimed scenario (3 stages, stage 2 erroring
on item 3, head closed after 5 items) the error channel receives **two**
values, not exactly one: the stage-2 effect error plus the
pipeline-closing error the pre-stage publishes when it observes head
closure (bpipes.go lines 155-159). -/
theorem pipeline_scenario_two_errors :
    (pipelineSim c7Effects c7HeadItems).2 = 2 ∧
    (pipelineSim c7Effects c7HeadItems).2 ≠ 1 := by
  constructor
  · rfl
  · intro h; cases h

/-- C7 amended: in the scenario, the tail receives exactly items 1–2 in
order and the error channel receives exactly two errors (the stage-2
effect error and the pre-stage's head-closed error); that count is within
the error-channel capacity `1 + number of stages`, and in general a
pipeline run never sends more than its error-channel capacity, so no stage
ever blocks when reporting. -/
theorem pipeline_scenario_amended :
    pipelineSim c7Effects c7HeadItems = ([1, 2], 2) ∧
    (pipelineSim c7Effects c7HeadItems).2 ≤ errChanCap c7Effects.length ∧
    (∀ (effs : List (Nat → EffRes)) (items : List Nat),
      (pipelineSim effs items).2 ≤ errChanCap effs.length) := by
  refine ⟨rfl, by decide, ?_⟩
  intro effs items
  have h := pipelineSim_fold_bound effs items 1
  simpa [pipelineSim, errChanCap, Nat.add_comm] using h

end BPipes
end Picast

namespace Picast

/-- Reduction of `Res` bind on a normal return. -/
theorem res_bind_ok {α β : Type} (a : α) (f : α → Res β) :
    (Res.ok a >>= f) = f a := rfl

/-- A returned error short-circuits `Res` bind. -/
theorem res_bind_fail {α β : Type} (e : GoErr) (f : α → Res β) :
    ((Res.fail e : Res α) >>= f) = Res.fail e := rfl

/-- A panic short-circuits `Res` bind. -/
theorem res_bind_crash {α β : Type} (f : α → Res β) :
    ((Res.crash : Res α) >>= f) = Res.crash := rfl

/-- Replacing the bindings of one name in a header list leaves the name
sequence unchanged. -/
theorem putLine_replace_names (h : Headers) (hl : HeaderLine) :
    (h.map (fun x => if x.name = hl.name then hl else x)).map HeaderLine.name
      = h.map HeaderLine.name := by
  rw [List.map_map]
  apply List.map_congr_left
  intro x _
  by_cases hx : x.name = hl.name
  · simp [Function.comp, hx]
  · simp [Function.comp, hx]

/-- `PutLine` preserves distinctness of the bound names. -/
theorem putLine_nodup (h : Headers) (hl : HeaderLine)
    (hn : (h.map HeaderLine.name).Nodup) :
    ((h.putLine hl).map HeaderLine.name).Nodup := by
  unfold Headers.putLine
  by_cases hany : h.any (fun x => x.name = hl.name) = true
  · rw [if_pos hany, putLine_replace_names]
    exact hn
  · rw [if_neg hany]
    simp only [List.map_append, List.map_cons, List.map_nil]
    rw [List.nodup_append]
    refine ⟨hn, List.nodup_singleton _, ?_⟩
    intro nm hnm hnm2
    simp only [List.mem_singleton] at hnm2
    subst hnm2
    rcases List.mem_map.mp hnm with ⟨x, hx, hxn⟩
    exact hany (List.any_eq_true.mpr ⟨x, hx, by simpa using hxn⟩)

/-- `find?` through the name-preserving replacement map. -/
theorem find?_map_replace (h : Headers) (hl : HeaderLine) (n : GoStr) :
    (h.map (fun x => if x.name = hl.name then hl else x)).find? (fun x => x.name = n)
      = (h.find? (fun x => x.name = n)).map
          (fun x0 => if x0.name = hl.name then hl else x0) := by
  rw [List.find?_map]
  have hp : ((fun x : HeaderLine => decide (x.name = n)) ∘
        (fun x => if x.name = hl.name then hl else x))
      = (fun x : HeaderLine => decide (x.name = n)) := by
    funext x
    by_cases hxh : x.name = hl.name <;> simp [Function.comp, hxh]
  rw [hp]

/-- Looking a name up after a `PutLine`: the new line if the names match,
the previous binding otherwise (exactly a Go map assignment). -/
theorem getLine_putLine (h : Headers) (hl : HeaderLine) (n : GoStr) :
    (h.putLine hl).getLine n = if n = hl.name then some hl else h.getLine n := by
  unfold Headers.putLine Headers.getLine
  by_cases hany : h.any (fun x => x.name = hl.name) = true
  · rw [if_pos hany, find?_map_replace]
    by_cases hn : n = hl.name
    · rw [if_pos hn]
      rcases hfind : h.find? (fun x => decide (x.name = n)) with _ | x0
      · rcases List.any_eq_true.mp hany with ⟨x, hx, hxn⟩
        rw [List.find?_eq_none] at hfind
        exact absurd (show decide (x.name = n) = true by
            simp only [decide_eq_true_eq] at hxn ⊢; rw [hn]; exact hxn)
          (by simpa using hfind x hx)
      · rw [hfind]
        have hx0 : x0.name = n := by simpa using List.find?_some hfind
        have hx0h : x0.name = hl.name := by rw [hx0]; exact hn
        simp [hx0h]
    · rw [if_neg hn]
      rcases hfind : h.find? (fun x => decide (x.name = n)) with _ | x0
      · rw [hfind]; rfl
      · rw [hfind]
        have hx0 : x0.name = n := by simpa using List.find?_some hfind
        have hne : ¬ x0.name = hl.name := by rw [hx0]; exact hn
        simp [hne]
  · rw [if_neg hany, List.find?_append]
    by_cases hn : n = hl.name
    · rw [if_pos hn]
      have hnone : h.find? (fun x => decide (x.name = n)) = none := by
        rw [List.find?_eq_none]
        intro x hx hcontra
        refine hany (List.any_eq_true.mpr ⟨x, hx, ?_⟩)
        simp only [decide_eq_true_eq] at hcontra ⊢
        rw [← hn]; exact hcontra
      rw [hnone, Option.none_or]
      simp [hn]
    · rw [if_neg hn]
      have hne2 : decide (hl.name = n) = false :=
        decide_eq_false (fun hc => hn hc.symm)
      simp [List.find?_cons, hne2]

/-- `getLast?` of a cons, in `Option.or` form. -/
theorem getLast?_cons_or {α : Type} (a : α) (l : List α) :
    (a :: l).getLast? = l.getLast?.or (some a) := by
  induction l generalizing a with
  | nil => rfl
  | cons b t ih =>
    rw [List.getLast?_cons_cons, ih b]
    cases t.getLast? <;> rfl

/-- Folding `PutLine` over a line sequence: the final binding of each name
is the last line of that name in the sequence, falling back to the
accumulator's binding. -/
theorem getLine_foldl_putLine (ls : List HeaderLine) (acc : Headers) (n : GoStr) :
    (ls.foldl Headers.putLine acc).getLine n
      = ((ls.filter (fun hl => hl.name = n)).getLast?).or (acc.getLine n) := by
  induction ls generalizing acc with
  | nil => simp
  | cons hl rest ih =>
    rw [List.foldl_cons, ih]
    by_cases hn : hl.name = n
    · rw [List.filter_cons_of_pos (by simpa using hn), getLast?_cons_or, Option.or_assoc]
      rw [getLine_putLine]
      have hn2 : n = hl.name := hn.symm
      simp [hn2]
    · rw [List.filter_cons_of_neg (by simpa using hn), getLine_putLine]
      have hn2 : ¬ (n = hl.name) := fun hc => hn hc.symm
      simp [hn2]

/-- Folding `PutLine` preserves name distinctness. -/
theorem nodup_foldl_putLine (ls : List HeaderLine) (acc : Headers)
    (hn : (acc.map HeaderLine.name).Nodup) :
    ((ls.foldl Headers.putLine acc).map HeaderLine.name).Nodup := by
  induction ls generalizing acc with
  | nil => exact hn
  | cons hl rest ih => exact ih _ (putLine_nodup acc hl hn)

/-- The loop of `NewHeadersFromString` is the fold of `PutLine` over the
parsed line sequence. -/
theorem buildHeaders_eq_fold (lines : List GoStr) (acc : Headers) (h : Headers)
    (hok : buildHeaders lines acc = .ok h) :
    ∃ ls, parseHeaderLines lines = .ok ls ∧ h = ls.foldl Headers.putLine acc := by
  induction lines generalizing acc with
  | nil =>
    have hacc : acc = h := by
      simpa [buildHeaders] using hok
    exact ⟨[], rfl, by simp [hacc]⟩
  | cons ln rest ih =>
    cases hp : ParseHeaderLine ln with
    | ok hl =>
      have hok2 : buildHeaders rest (acc.putLine hl) = .ok h := by
        have := hok
        rw [buildHeaders, hp, res_bind_ok] at this
        exact this
      rcases ih (acc.putLine hl) hok2 with ⟨ls, hls, hfold⟩
      refine ⟨hl :: ls, ?_, by simpa using hfold⟩
      rw [parseHeaderLines, hp, res_bind_ok, hls, res_bind_ok]
    | fail e =>
      rw [buildHeaders, hp, res_bind_fail] at hok
      exact absurd hok (by simp)
    | crash =>
      rw [buildHeaders, hp, res_bind_crash] at hok
      exact absurd hok (by simp)

end Picast

namespace Picast

/-- Distinct names means each name matches at most one entry. -/
theorem filter_name_length_le_one (h : Headers)
    (hn : (h.map HeaderLine.name).Nodup) (nm : GoStr) :
    (h.filter (fun hl => hl.name = nm)).length ≤ 1 := by
  induction h with
  | nil => simp
  | cons x t ih =>
    simp only [List.map_cons, List.nodup_cons] at hn
    by_cases hx : x.name = nm
    · rw [List.filter_cons_of_pos (by simpa using hx)]
      have hnil : t.filter (fun hl => decide (hl.name = nm)) = [] := by
        rw [List.filter_eq_nil_iff]
        intro y hy
        simp only [decide_eq_true_eq]
        intro hc
        exact hn.1 (List.mem_map.mpr ⟨y, hy, by rw [hc, hx]⟩)
      simp [hnil]
    · rw [List.filter_cons_of_neg (by simpa using hx)]
      exact ih hn.2

/-- C10: header collections are maps keyed by header name.  For every input
whose headers section parses, each header name is bound to at most one
line; if the same name occurs on several lines of the input, the binding is
the last occurrence (so a request with two CSeq lines behaves as if only
the second were present); and since `Headers.Marshal` emits exactly one
line per map entry, serialization emits at most one line per header name. -/
theorem headers_last_occurrence_wins :
    ∀ (s : GoStr) (h : Headers) (ls : List HeaderLine) (n : GoStr),
      NewHeadersFromString s = .ok h →
      headerLinesOf s = .ok ls →
      ((h.map HeaderLine.name).Nodup ∧
       (∀ nm, (h.filter (fun hl => hl.name = nm)).length ≤ 1) ∧
       h.getLine n = (ls.filter (fun hl => hl.name = n)).getLast?) := by
  intro s h ls n hok hlines
  rw [NewHeadersFromString] at hok
  rw [headerLinesOf] at hlines
  rcases buildHeaders_eq_fold _ [] h hok with ⟨ls2, hls2, hfold⟩
  have hls : ls2 = ls := by
    rw [hlines] at hls2
    exact (Res.ok.inj hls2).symm
  subst hls
  refine ⟨?_, ?_, ?_⟩
  · rw [hfold]
    exact nodup_foldl_putLine _ [] (by simp)
  · intro nm
    rw [hfold]
    exact filter_name_length_le_one _ (nodup_foldl_putLine _ [] (by simp)) nm
  · rw [hfold, getLine_foldl_putLine]
    simp [Headers.getLine]

/-- Witness for C10 at the two-CSeq example: the parsed map binds `CSeq` to
the second line only. -/
theorem headers_last_occurrence_wins_witness :
    NewHeadersFromString c10DupInput = .ok [HeaderLine.generic (gs "CSeq") (gs "2")] ∧
    Headers.getLine [HeaderLine.generic (gs "CSeq") (gs "2")] (gs "CSeq")
      = (([HeaderLine.generic (gs "CSeq") (gs "1"),
           HeaderLine.generic (gs "CSeq") (gs "2")].filter
            (fun hl => hl.name = gs "CSeq")).getLast?) :=
  ⟨rfl,
   (headers_last_occurrence_wins c10DupInput
      [HeaderLine.generic (gs "CSeq") (gs "2")]
      [HeaderLine.generic (gs "CSeq") (gs "1"), HeaderLine.generic (gs "CSeq") (gs "2")]
      (gs "CSeq") rfl rfl).2.2⟩

end Picast

namespace Picast

/-- `dropWhile` on a list whose members all fail the predicate is the
identity. -/
theorem dropWhile_eq_self_of {α : Type} (p : α → Bool) (l : List α)
    (h : ∀ x ∈ l, p x = false) : l.dropWhile p = l := by
  cases l with
  | nil => rfl
  | cons x t =>
    rw [List.dropWhile_cons_of_neg]
    simp [h x (List.mem_cons_self x t)]

/-- `strings.Trim` leaves a string with no cutset characters unchanged. -/
theorem goTrim_eq_self (s cutset : GoStr) (h : ∀ x ∈ s, x ∉ cutset) :
    goTrim s cutset = s := by
  unfold goTrim
  have hp : ∀ x ∈ s, (cutset.contains x) = false := by
    intro x hx
    exact Bool.eq_false_iff.mpr (fun hc => h x hx (List.mem_of_elem_eq_true hc))
  rw [dropWhile_eq_self_of _ s hp,
      dropWhile_eq_self_of _ s.reverse (fun x hx => hp x (List.mem_reverse.mp hx)),
      List.reverse_reverse]

/-- `strings.TrimPrefix` removes an actual prefix. -/
theorem goTrimPrefix_append (p v : GoStr) : goTrimPrefix (p ++ v) p = v := by
  unfold goTrimPrefix
  rw [if_pos (List.isPrefixOf_iff_prefix.mpr (List.prefix_append p v)), List.drop_left]

/-- Splitting on a character that does not occur yields the whole string. -/
theorem goSplitChar_no_sep (c : Char) (s : GoStr) (h : ∀ x ∈ s, x ≠ c) :
    goSplitChar c s = [s] := by
  induction s with
  | nil => rfl
  | cons x t ih =>
    have hx : ¬ (x = c) := h x (List.mem_cons_self x t)
    have ht := ih (fun y hy => h y (List.mem_cons_of_mem x hy))
    simp only [goSplitChar, hx, if_false, ht]

/-- Splitting at the first separator occurrence. -/
theorem goSplitChar_append_sep (c : Char) (s t : GoStr) (h : ∀ x ∈ s, x ≠ c) :
    goSplitChar c (s ++ c :: t) = s :: goSplitChar c t := by
  induction s with
  | nil => simp [goSplitChar]
  | cons x s2 ih =>
    have hx : ¬ (x = c) := h x (List.mem_cons_self x s2)
    have ht := ih (fun y hy => h y (List.mem_cons_of_mem x hy))
    rw [List.cons_append]
    show (let r := goSplitChar c (s2 ++ c :: t);
      if x = c then [] :: r else match r with | [] => [[x]] | h :: t => (x :: h) :: t)
      = (x :: s2) :: goSplitChar c t
    rw [ht]
    simp [hx]

/-- A split result is never empty. -/
theorem goSplitChar_ne_nil (c : Char) (s : GoStr) : goSplitChar c s ≠ [] := by
  cases s with
  | nil => simp [goSplitChar]
  | cons x t =>
    simp only [goSplitChar]
    by_cases hx : x = c
    · simp [hx]
    · simp only [hx, if_false]
      rcases goSplitChar c t with _ | ⟨h2, t2⟩ <;> simp

/-- `goLinesNL` of a newline-free chunk followed by a newline: one line. -/
theorem goLinesNL_append (s t : GoStr) (h : ∀ x ∈ s, x ≠ '\n') :
    goLinesNL (s ++ '\n' :: t) = (s ++ ['\n']) :: goLinesNL t := by
  induction s with
  | nil => simp [goLinesNL]
  | cons x s2 ih =>
    have hx : ¬ (x = '\n') := h x (List.mem_cons_self x s2)
    have ht := ih (fun y hy => h y (List.mem_cons_of_mem x hy))
    rw [List.cons_append]
    show (if x = '\n' then ['\n'] :: goLinesNL (s2 ++ '\n' :: t)
      else match goLinesNL (s2 ++ '\n' :: t) with | [] => [[x]] | l :: ls => (x :: l) :: ls)
      = ((x :: s2) ++ ['\n']) :: goLinesNL t
    rw [ht]
    simp [hx]

/-- `strings.Index` for a two-character separator past a clean prefix. -/
theorem goIndexTwo_append (a b : Char) (s t : GoStr) (h : ∀ x ∈ s, x ≠ a) :
    goIndexTwo a b (s ++ t) = (goIndexTwo a b t).map (· + s.length) := by
  induction s with
  | nil => simp
  | cons x s2 ih =>
    have hx : ¬ (x = a) := h x (List.mem_cons_self x s2)
    have ht := ih (fun y hy => h y (List.mem_cons_of_mem x hy))
    rw [List.cons_append]
    cases hs : s2 ++ t with
    | nil =>
      rcases List.append_eq_nil.mp hs with ⟨hs2, htn⟩
      subst hs2; subst htn
      simp [goIndexTwo]
    | cons y r =>
      show (if x = a ∧ y = b then some 0 else (goIndexTwo a b (y :: r)).map (· + 1))
        = (goIndexTwo a b t).map (· + (x :: s2).length)
      rw [if_neg (fun hc => hx hc.1), ← hs, ht]
      cases goIndexTwo a b t with
      | none => rfl
      | some i =>
        simp only [Option.map_some', List.length_cons]
        rfl

/-- `findIdx?` past a prefix with no matches. -/
theorem findIdx?_append_of_none {α : Type} (p : α → Bool) (s t : List α)
    (h : ∀ x ∈ s, p x = false) :
    (s ++ t).findIdx? p = (t.findIdx? p).map (· + s.length) := by
  rw [List.findIdx?_append]
  have hs : s.findIdx? p = none :=
    List.findIdx?_eq_none_iff.mpr (fun x hx => by simp [h x hx])
  rw [hs, Option.none_or]

end Picast

namespace Picast

/-- Unfolded step equation of `goSplitNChar` at `n + 2`. -/
theorem goSplitNChar_succ2 (c : Char) (n : Nat) (s : GoStr) :
    goSplitNChar c (n + 2) s
      = match s.findIdx? (· = c) with
        | none => [s]
        | some i => s.take i :: goSplitNChar c (n + 1) (s.drop (i + 1)) := rfl

/-- A transport spec with no semicolon at all (hence missing the mode and
client_port fields, and possibly the slash) panics: either `protoParts[1]`
or `parts[1]` is out of range. -/
theorem parseTransportSpec_no_semicolon (v : GoStr)
    (hsemi : ∀ x ∈ v, x ≠ ';')
    (hws : ∀ x ∈ v, x ∉ ([' ', '\t', '\r', '\n'] : List Char)) :
    parseTransportSpec v = .crash := by
  have htrim : goTrim v [' ', '\t', '\r', '\n'] = v := goTrim_eq_self v _ hws
  have hparts : goSplitChar ';' v = [v] := goSplitChar_no_sep ';' v hsemi
  rcases hsp : goSplitChar '/' v with _ | ⟨p0, rest⟩
  · exact absurd hsp (goSplitChar_ne_nil '/' v)
  · cases rest with
    | nil =>
      simp [parseTransportSpec, goTrimSpace, htrim, hparts, hsp, goIndex,
            res_bind_ok, res_bind_fail, res_bind_crash]
    | cons p1 rest2 =>
      simp [parseTransportSpec, goTrimSpace, htrim, hparts, hsp, goIndex,
            res_bind_ok, res_bind_fail, res_bind_crash]

/-- A transport spec with exactly one semicolon (`PROTOCOL/PROFILE;mode`
but no `client_port` field) panics at `parts[2]` (or earlier at a missing
slash). -/
theorem parseTransportSpec_one_semicolon (v1 v2 : GoStr)
    (h1 : ∀ x ∈ v1, x ≠ ';') (h2 : ∀ x ∈ v2, x ≠ ';')
    (hws : ∀ x ∈ v1 ++ ';' :: v2, x ∉ ([' ', '\t', '\r', '\n'] : List Char)) :
    parseTransportSpec (v1 ++ ';' :: v2) = .crash := by
  have htrim : goTrim (v1 ++ ';' :: v2) [' ', '\t', '\r', '\n'] = v1 ++ ';' :: v2 :=
    goTrim_eq_self _ _ hws
  have hparts : goSplitChar ';' (v1 ++ ';' :: v2) = [v1, v2] := by
    rw [goSplitChar_append_sep ';' v1 _ h1, goSplitChar_no_sep ';' v2 h2]
  rcases hsp : goSplitChar '/' v1 with _ | ⟨p0, rest⟩
  · exact absurd hsp (goSplitChar_ne_nil '/' v1)
  · cases rest with
    | nil =>
      simp [parseTransportSpec, goTrimSpace, htrim, hparts, hsp, goIndex,
            res_bind_ok, res_bind_fail, res_bind_crash]
    | cons p1 rest2 =>
      simp [parseTransportSpec, goTrimSpace, htrim, hparts, hsp, goIndex,
            res_bind_ok, res_bind_fail, res_bind_crash]

/-- Converts cutset membership for the `" \r\n"` cutset of
`ParseTransportHeaderLine` into the four-character whitespace cutset. -/
theorem trim_crlf_space_eq_self (v : GoStr)
    (hws : ∀ x ∈ v, x ∉ ([' ', '\t', '\r', '\n'] : List Char)) :
    goTrim v (gs " \r\n") = v := by
  apply goTrim_eq_self
  intro x hx hc
  rw [show (gs " \r\n") = [' ', '\r', '\n'] from rfl] at hc
  apply hws x hx
  simp only [List.mem_cons, List.not_mem_nil, or_false] at hc ⊢
  tauto

/-- A `Transport` header whose single transport value contains no comma and
no semicolon (missing mode and port fields) makes `ParseTransportHeaderLine`
panic. -/
theorem parseTransportHeader_no_semicolon_crash (v : GoStr)
    (hsemi : ∀ x ∈ v, x ≠ ';') (hcomma : ∀ x ∈ v, x ≠ ',')
    (hws : ∀ x ∈ v, x ∉ ([' ', '\t', '\r', '\n'] : List Char)) :
    ParseTransportHeaderLine (gs "Transport: " ++ v) = .crash := by
  unfold ParseTransportHeaderLine
  simp only [goTrimPrefix_append, trim_crlf_space_eq_self v hws,
    goSplitChar_no_sep ',' v hcomma]
  simp [parseTransportSpecs, parseTransportSpec_no_semicolon v hsemi hws,
        res_bind_ok, res_bind_fail, res_bind_crash]

/-- A `Transport` header whose single transport value has exactly one
semicolon (no `client_port` field) makes `ParseTransportHeaderLine` panic. -/
theorem parseTransportHeader_one_semicolon_crash (v1 v2 : GoStr)
    (h1 : ∀ x ∈ v1, x ≠ ';') (h2 : ∀ x ∈ v2, x ≠ ';')
    (hc1 : ∀ x ∈ v1, x ≠ ',') (hc2 : ∀ x ∈ v2, x ≠ ',')
    (hws : ∀ x ∈ v1 ++ ';' :: v2, x ∉ ([' ', '\t', '\r', '\n'] : List Char)) :
    ParseTransportHeaderLine (gs "Transport: " ++ (v1 ++ ';' :: v2)) = .crash := by
  unfold ParseTransportHeaderLine
  have hcomma : ∀ x ∈ v1 ++ ';' :: v2, x ≠ ',' := by
    intro x hx
    rcases List.mem_append.mp hx with hx1 | hx2
    · exact hc1 x hx1
    · rcases List.mem_cons.mp hx2 with hx3 | hx4
      · subst hx3; decide
      · exact hc2 x hx4
  simp only [goTrimPrefix_append, trim_crlf_space_eq_self _ hws,
    goSplitChar_no_sep ',' _ hcomma]
  simp [parseTransportSpecs, parseTransportSpec_one_semicolon v1 v2 h1 h2 hws,
        res_bind_ok, res_bind_fail, res_bind_crash]

end Picast

namespace Picast

/-- A request whose method token is not one of the eleven RFC 2326 methods
is rejected by `newRequestFromString` with `ErrBadRequest`, and the server
then closes the connection without writing any response (no 400 is ever
sent). -/
theorem unknown_method_no_response (st : ServerState) (m : GoStr)
    (hm : IsValidRTSPMethod m = false)
    (hclean : ∀ c ∈ m, c ≠ '\r' ∧ c ≠ '\n' ∧ c ≠ ' ') :
    newRequestFromString (m ++ gs " rtsp://h/x RTSP/1.0\r\n\r\n") = .fail .badRequest ∧
    serveConn st (m ++ gs " rtsp://h/x RTSP/1.0\r\n\r\n") = .droppedNoResponse := by
  have hmtok : methodOfToken m = none := by
    cases htok : methodOfToken m with
    | none => rfl
    | some mm => rw [IsValidRTSPMethod, htok] at hm; simp at hm
  have hidx : goIndexTwo '\r' '\n' (m ++ gs " rtsp://h/x RTSP/1.0\r\n\r\n")
      = some (20 + m.length) := by
    rw [goIndexTwo_append _ _ m _ (fun c hc => (hclean c hc).1)]
    rfl
  have htake : (m ++ gs " rtsp://h/x RTSP/1.0\r\n\r\n").take (20 + m.length)
      = m ++ gs " rtsp://h/x RTSP/1.0" := by
    rw [Nat.add_comm, List.take_append]
    rfl
  have hfindsp : (m ++ gs " rtsp://h/x RTSP/1.0").findIdx? (· = ' ')
      = some (0 + m.length) := by
    rw [findIdx?_append_of_none _ m _ (fun c hc => decide_eq_false (hclean c hc).2.2)]
    rfl
  have hdrop : (m ++ gs " rtsp://h/x RTSP/1.0").drop (m.length + 1)
      = gs "rtsp://h/x RTSP/1.0" := by
    rw [show (gs " rtsp://h/x RTSP/1.0") = ' ' :: gs "rtsp://h/x RTSP/1.0" from rfl,
        List.drop_append 1]
    rfl
  have hsplit3 : goSplitNChar ' ' 3 (m ++ gs " rtsp://h/x RTSP/1.0")
      = [m, gs "rtsp://h/x", gs "RTSP/1.0"] := by
    rw [goSplitNChar_succ2, hfindsp]
    simp only [Nat.zero_add]
    rw [List.take_left, hdrop]
    rfl
  have hparse : newRequestFromString (m ++ gs " rtsp://h/x RTSP/1.0\r\n\r\n")
      = .fail .badRequest := by
    unfold newRequestFromString
    rw [hidx]
    simp [htake, hsplit3, goIndex, hmtok, res_bind_ok, res_bind_fail, res_bind_crash]
  refine ⟨hparse, ?_⟩
  have hnl : ∀ x ∈ m ++ gs " rtsp://h/x RTSP/1.0\r", x ≠ '\n' := by
    intro x hx
    rcases List.mem_append.mp hx with h1 | h2
    · exact (hclean x h1).2.1
    · exact (by decide : ∀ y ∈ gs " rtsp://h/x RTSP/1.0\r", y ≠ '\n') x h2
  have hlines : goLinesNL (m ++ gs " rtsp://h/x RTSP/1.0\r\n\r\n")
      = [(m ++ gs " rtsp://h/x RTSP/1.0\r") ++ ['\n'], gs "\r\n"] := by
    rw [show m ++ gs " rtsp://h/x RTSP/1.0\r\n\r\n"
        = (m ++ gs " rtsp://h/x RTSP/1.0\r") ++ '\n' :: gs "\r\n" by
          rw [List.append_assoc]
          rfl]
    rw [goLinesNL_append _ _ hnl]
    rfl
  have hline1ne : ¬ ((m ++ (gs " rtsp://h/x RTSP/1.0\r" ++ ['\n'])) = gs "\r\n") := by
    intro hc
    have hlen := congrArg List.length hc
    have h21 : (gs " rtsp://h/x RTSP/1.0\r").length = 21 := rfl
    have hcr : (gs "\r\n").length = 2 := rfl
    simp [List.length_append, h21, hcr] at hlen
  have hcontains : ((m ++ gs " rtsp://h/x RTSP/1.0\r") ++ ['\n']).contains '\n' = true :=
    List.elem_eq_true_of_mem (List.mem_append_right _ (List.mem_singleton.mpr rfl))
  have hread : readHeadFrom (goLinesNL (m ++ gs " rtsp://h/x RTSP/1.0\r\n\r\n"))
      = some ((m ++ gs " rtsp://h/x RTSP/1.0\r") ++ ['\n'] ++ gs "\r\n", []) := by
    rw [hlines]
    simp +decide [readHeadFrom, hcontains, hline1ne]
  have hraw : (m ++ gs " rtsp://h/x RTSP/1.0\r") ++ ['\n'] ++ gs "\r\n"
      = m ++ gs " rtsp://h/x RTSP/1.0\r\n\r\n" := by
    simp only [List.append_assoc]
    rfl
  have hreadreq : readRequest (m ++ gs " rtsp://h/x RTSP/1.0\r\n\r\n")
      = .fail .badRequest := by
    unfold readRequest
    rw [hread, hraw]
    simp [hparse, res_bind_fail]
  unfold serveConn
  rw [hreadreq]

end Picast

namespace Picast

/-- C4 amended: an unknown method token makes `newRequestFromString` return
`ErrBadRequest` and the server close the connection **without writing any
response** (not a 400); a `Transport` header value missing the mode and
client_port fields (no semicolon at all — which also covers a missing
PROTOCOL/PROFILE slash) or missing only the client_port field (exactly one
semicolon) makes `ParseTransportHeaderLine` **panic** with an out-of-range
index instead of producing a 400. -/
theorem malformed_requests_never_answered :
    (∀ (st : ServerState) (m : GoStr),
       IsValidRTSPMethod m = false →
       (∀ c ∈ m, c ≠ '\r' ∧ c ≠ '\n' ∧ c ≠ ' ') →
       newRequestFromString (m ++ gs " rtsp://h/x RTSP/1.0\r\n\r\n") = .fail .badRequest ∧
       serveConn st (m ++ gs " rtsp://h/x RTSP/1.0\r\n\r\n") = .droppedNoResponse) ∧
    (∀ v : GoStr,
       (∀ x ∈ v, x ≠ ';') → (∀ x ∈ v, x ≠ ',') →
       (∀ x ∈ v, x ∉ ([' ', '\t', '\r', '\n'] : List Char)) →
       ParseTransportHeaderLine (gs "Transport: " ++ v) = .crash) ∧
    (∀ v1 v2 : GoStr,
       (∀ x ∈ v1, x ≠ ';') → (∀ x ∈ v2, x ≠ ';') →
       (∀ x ∈ v1, x ≠ ',') → (∀ x ∈ v2, x ≠ ',') →
       (∀ x ∈ v1 ++ ';' :: v2, x ∉ ([' ', '\t', '\r', '\n'] : List Char)) →
       ParseTransportHeaderLine (gs "Transport: " ++ (v1 ++ ';' :: v2)) = .crash) :=
  ⟨unknown_method_no_response,
   parseTransportHeader_no_semicolon_crash,
   parseTransportHeader_one_semicolon_crash⟩

/-- Witness for the amended C4 at the method token `FOO` and the transport
values `RTP` and `RTP/AVP;unicast`. -/
theorem malformed_requests_never_answered_witness :
    serveConn c1Server (gs "FOO" ++ gs " rtsp://h/x RTSP/1.0\r\n\r\n") = .droppedNoResponse ∧
    ParseTransportHeaderLine (gs "Transport: " ++ gs "RTP") = .crash ∧
    ParseTransportHeaderLine (gs "Transport: " ++ (gs "RTP/AVP" ++ ';' :: gs "unicast")) = .crash :=
  ⟨(malformed_requests_never_answered.1 c1Server (gs "FOO") (by decide) (by decide)).2,
   malformed_requests_never_answered.2.1 (gs "RTP") (by decide) (by decide) (by decide),
   malformed_requests_never_answered.2.2 (gs "RTP/AVP") (gs "unicast")
     (by decide) (by decide) (by decide) (by decide) (by decide)⟩

/-- C4 counterexample: at the concrete unknown-method request the server
writes nothing at all, and at the concrete malformed-Transport request it
panics — in neither case is the claimed 400 Bad Request response produced. -/
theorem malformed_requests_counterexample :
    serveConn c1Server c4BadMethodInput = .droppedNoResponse ∧
    (serveConn c1Server c4BadMethodInput).isWrote = false ∧
    serveConn c1Server c4BadTransportInput = .crashed ∧
    (serveConn c1Server c4BadTransportInput).isWrote = false :=
  ⟨rfl, rfl, rfl, rfl⟩

end Picast

namespace Picast
namespace BPipes

/-- The `pumpData` loop itself never closes a channel and never runs a
teardown. -/
theorem stagePump_not_mem (i : Nat) (sched : List StageEv) :
    (∀ c, Action.closeCh c ∉ (stagePump i sched).1) ∧
    (∀ j, Action.teardown j ∉ (stagePump i sched).1) := by
  induction sched with
  | nil => simp [stagePump]
  | cons ev rest ih =>
    cases ev with
    | ctxDone => simp [stagePump]
    | recvClosed => simp [stagePump]
    | recvItem x e =>
      cases e with
      | ok =>
        rcases hp : stagePump i rest with ⟨as, r⟩
        constructor
        · intro c
          have := ih.1 c
          rw [hp] at this
          simp [stagePump, hp]
          exact this
        · intro j
          have := ih.2 j
          rw [hp] at this
          simp [stagePump, hp]
          exact this
      | err => simp [stagePump]
      | cancelErr => simp [stagePump]

/-- The sink loop only receives; it never closes, tears down, or runs an
effect. -/
theorem sinkLoop_not_mem (i : Nat) (sched : List StageEv) :
    (∀ c, Action.closeCh c ∉ (sinkLoop i sched).1) ∧
    (∀ j, Action.teardown j ∉ (sinkLoop i sched).1) ∧
    (∀ x e, Action.runEffect x e ∉ (sinkLoop i sched).1) := by
  induction sched with
  | nil => simp [sinkLoop]
  | cons ev rest ih =>
    cases ev with
    | ctxDone =>
      refine ⟨fun c => ?_, fun j => ?_, fun x e => ?_⟩
      · simpa [sinkLoop] using ih.1 c
      · simpa [sinkLoop] using ih.2.1 j
      · simpa [sinkLoop] using ih.2.2 x e
    | recvClosed => simp [sinkLoop]
    | recvItem x0 e0 =>
      rcases hp : sinkLoop i rest with ⟨as, fin⟩
      refine ⟨fun c => ?_, fun j => ?_, fun x e => ?_⟩
      · have := ih.1 c
        rw [hp] at this
        simp [sinkLoop, hp]
        exact this
      · have := ih.2.1 j
        rw [hp] at this
        simp [sinkLoop, hp]
        exact this
      · have := ih.2.2 x e
        rw [hp] at this
        simp [sinkLoop, hp]
        exact this

/-- Structure of an exited stage run: whatever the schedule, the trace is
the pump actions, then exactly one close of the stage's output channel
immediately followed by exactly one teardown, then only sink receives.  In
particular the teardown happens after the output close and after every
effect invocation of the stage. -/
theorem runStageGo_structure (i : Nat) (sched : List StageEv)
    (hex : (runStageGo i sched).exited = true) :
    ∃ pre post,
      (runStageGo i sched).trace = pre ++ [.closeCh (.inter (i + 1)), .teardown i] ++ post ∧
      (∀ c, Action.closeCh c ∉ pre) ∧ (∀ j, Action.teardown j ∉ pre) ∧
      (∀ c, Action.closeCh c ∉ post) ∧ (∀ j, Action.teardown j ∉ post) ∧
      (∀ x e, Action.runEffect x e ∉ post) := by
  unfold runStageGo at hex ⊢
  rcases hp : stagePump i sched with ⟨as, r⟩
  have hmem := stagePump_not_mem i sched
  rw [hp] at hmem
  cases r with
  | none => rw [hp] at hex; simp at hex
  | some pr =>
    rcases pr with ⟨enterSink, rest⟩
    by_cases hs : enterSink = true
    · subst hs
      rcases hq : sinkLoop i rest with ⟨ss, fin⟩
      have hsm := sinkLoop_not_mem i rest
      rw [hq] at hsm
      refine ⟨as, ss, ?_, hmem.1, hmem.2, hsm.1, hsm.2.1, hsm.2.2⟩
      simp [hq]
    · have hs2 : enterSink = false := by
        cases enterSink
        · rfl
        · exact absurd rfl hs
      subst hs2
      refine ⟨as, [], ?_, hmem.1, hmem.2, by simp, by simp, by simp⟩
      simp

end BPipes
end Picast

namespace Picast
namespace BPipes

/-- Channel-close and teardown counts of one exited stage goroutine: its
own output channel is closed exactly once, no other channel (in particular
not the head) is ever closed, and its teardown runs exactly once. -/
theorem runStageGo_counts (i : Nat) (sched : List StageEv)
    (hex : (runStageGo i sched).exited = true) :
    (∀ k, (runStageGo i sched).trace.count (.closeCh (.inter k))
        = if k = i + 1 then 1 else 0) ∧
    ((runStageGo i sched).trace.count (.closeCh .head) = 0) ∧
    (∀ j, (runStageGo i sched).trace.count (.teardown j) = if j = i then 1 else 0) := by
  rcases runStageGo_structure i sched hex with ⟨pre, post, htr, hc1, ht1, hc2, ht2, _⟩
  rw [htr]
  refine ⟨fun k => ?_, ?_, fun j => ?_⟩
  · rw [List.count_append, List.count_append,
        List.count_eq_zero.mpr (hc1 _), List.count_eq_zero.mpr (hc2 _)]
    by_cases hk : k = i + 1
    · subst hk; simp
    · simp [List.count_cons, hk, Ne.symm hk]
  · rw [List.count_append, List.count_append,
        List.count_eq_zero.mpr (hc1 _), List.count_eq_zero.mpr (hc2 _)]
    simp
  · rw [List.count_append, List.count_append,
        List.count_eq_zero.mpr (ht1 _), List.count_eq_zero.mpr (ht2 _)]
    by_cases hj : j = i
    · subst hj; simp
    · simp [List.count_cons, hj, Ne.symm hj]

/-- Channel-close and teardown counts of the exited pre-stage goroutine:
it closes `nextInput` (channel 0) exactly once, closes nothing else — in
particular never the caller-owned head — and runs no teardown. -/
theorem runPreStageGo_counts (sched : List PreEv)
    (hex : (runPreStageGo sched).exited = true) :
    (∀ k, (runPreStageGo sched).trace.count (.closeCh (.inter k))
        = if k = 0 then 1 else 0) ∧
    ((runPreStageGo sched).trace.count (.closeCh .head) = 0) ∧
    (∀ j, (runPreStageGo sched).trace.count (.teardown j) = 0) := by
  induction sched with
  | nil => simp [runPreStageGo] at hex
  | cons ev rest ih =>
    cases ev with
    | ctxDone =>
      refine ⟨fun k => ?_, ?_, fun j => ?_⟩
      · by_cases hk : k = 0
        · subst hk; simp [runPreStageGo]
        · simp [runPreStageGo, List.count_cons, hk, Ne.symm hk]
      · simp [runPreStageGo]
      · simp [runPreStageGo]
    | headClosed =>
      refine ⟨fun k => ?_, ?_, fun j => ?_⟩
      · by_cases hk : k = 0
        · subst hk; simp [runPreStageGo]
        · simp [runPreStageGo, List.count_cons, hk, Ne.symm hk]
      · simp [runPreStageGo]
      · simp [runPreStageGo]
    | headItem x =>
      have hex2 : (runPreStageGo rest).exited = true := by
        simpa [runPreStageGo] using hex
      have ihr := ih hex2
      refine ⟨fun k => ?_, ?_, fun j => ?_⟩
      · simpa [runPreStageGo, List.count_cons] using ihr.1 k
      · simpa [runPreStageGo, List.count_cons] using ihr.2.1
      · simpa [runPreStageGo, List.count_cons] using ihr.2.2 j

/-- Counting distributes over a flattened trace list. -/
theorem count_flatten_eq_sum {α : Type} [BEq α] (L : List (List α)) (a : α) :
    L.flatten.count a = (L.map (fun l => l.count a)).sum := by
  induction L with
  | nil => rfl
  | cons x xs ih => simp [List.count_append, ih]

/-- Appending one more stage to the combined action multiset. -/
theorem pipelineActions_succ (n : Nat) (preSched : List PreEv)
    (scheds : Nat → List StageEv) :
    pipelineActions (n + 1) preSched scheds
      = pipelineActions n preSched scheds ++ (runStageGo n (scheds n)).trace := by
  simp [pipelineActions, pipelineTraces, List.range_succ]

/-- Combined counts over every goroutine of an `n`-stage pipeline run. -/
theorem pipelineActions_counts (n : Nat) (preSched : List PreEv)
    (scheds : Nat → List StageEv)
    (hpre : (runPreStageGo preSched).exited = true)
    (hst : ∀ i, i < n → (runStageGo i (scheds i)).exited = true) :
    (∀ k, (pipelineActions n preSched scheds).count (.closeCh (.inter k))
        = if k ≤ n then 1 else 0) ∧
    ((pipelineActions n preSched scheds).count (.closeCh .head) = 0) ∧
    (∀ j, (pipelineActions n preSched scheds).count (.teardown j)
        = if j < n then 1 else 0) := by
  induction n with
  | zero =>
    have hp := runPreStageGo_counts preSched hpre
    have h0 : pipelineActions 0 preSched scheds = (runPreStageGo preSched).trace := by
      simp [pipelineActions, pipelineTraces]
    refine ⟨fun k => ?_, ?_, fun j => ?_⟩
    · rw [h0, hp.1 k]
      by_cases hk : k = 0 <;> simp [hk, Nat.le_zero]
    · rw [h0]; exact hp.2.1
    · rw [h0, hp.2.2 j]; simp
  | succ n ihn =>
    have hstn : ∀ i, i < n → (runStageGo i (scheds i)).exited = true :=
      fun i hi => hst i (Nat.lt_succ_of_lt hi)
    have ih := ihn hstn
    have hs := runStageGo_counts n (scheds n) (hst n (Nat.lt_succ_self n))
    refine ⟨fun k => ?_, ?_, fun j => ?_⟩
    · rw [pipelineActions_succ, List.count_append, ih.1 k, hs.1 k]
      by_cases hk2 : k = n + 1
      · subst hk2
        rw [if_neg (by omega), if_pos rfl, if_pos (by omega)]
      · rw [if_neg hk2]
        by_cases hk1 : k ≤ n
        · rw [if_pos hk1, if_pos (by omega)]
        · rw [if_neg hk1, if_neg (by omega)]
    · rw [pipelineActions_succ, List.count_append, ih.2.1, hs.2.1]
    · rw [pipelineActions_succ, List.count_append, ih.2.2 j, hs.2.2 j]
      by_cases hj2 : j = n
      · subst hj2
        rw [if_neg (by omega), if_pos rfl, if_pos (by omega)]
      · rw [if_neg hj2]
        by_cases hj1 : j < n
        · rw [if_pos hj1, if_pos (by omega)]
        · rw [if_neg hj1, if_neg (by omega)]

/-- C6: for every pipeline run (any number of stages, any schedule of head
closure, context cancellation and stage-effect errors) in which every
goroutine leaves its pump loop: each inter-stage channel and the tail
(channel `n`) is closed exactly once; the caller-owned head channel is
never closed by any pipeline goroutine; each stage's teardown runs
exactly once, sequentially after its output channel is closed and after
every invocation of its effect (so never concurrently with it). -/
theorem pipeline_close_teardown_once :
    ∀ (n : Nat) (preSched : List PreEv) (scheds : Nat → List StageEv),
      (runPreStageGo preSched).exited = true →
      (∀ i, i < n → (runStageGo i (scheds i)).exited = true) →
      ((∀ k, k ≤ n →
          (pipelineActions n preSched scheds).count (.closeCh (.inter k)) = 1) ∧
       (pipelineActions n preSched scheds).count (.closeCh .head) = 0 ∧
       (∀ i, i < n → (pipelineActions n preSched scheds).count (.teardown i) = 1) ∧
       (∀ i, i < n → ∃ pre post,
          (runStageGo i (scheds i)).trace
            = pre ++ [.closeCh (.inter (i + 1)), .teardown i] ++ post ∧
          (∀ x e, Action.runEffect x e ∉ post) ∧
          (∀ c, Action.closeCh c ∉ pre) ∧ (∀ j, Action.teardown j ∉ pre))) := by
  intro n preSched scheds hpre hst
  have hc := pipelineActions_counts n preSched scheds hpre hst
  refine ⟨fun k hk => ?_, hc.2.1, fun i hi => ?_, fun i hi => ?_⟩
  · rw [hc.1 k, if_pos hk]
  · rw [hc.2.2 i, if_pos hi]
  · rcases runStageGo_structure i (scheds i) (hst i hi) with
      ⟨pre, post, htr, hpc, hpt, _, _, hpe⟩
    exact ⟨pre, post, htr, hpe, hpc, hpt⟩

/-- Witness for C6: a one-stage pipeline whose head delivers one item and
closes, while the stage forwards the item and sees its input close. -/
theorem pipeline_close_teardown_once_witness :
    (pipelineActions 1 [PreEv.headItem 1, PreEv.headClosed]
        (fun _ => [StageEv.recvItem 1 .ok, StageEv.recvClosed])).count
      (Action.closeCh (Chan.inter 1)) = 1 :=
  (pipeline_close_teardown_once 1 [PreEv.headItem 1, PreEv.headClosed]
      (fun _ => [StageEv.recvItem 1 .ok, StageEv.recvClosed])
      (by decide)
      (fun i hi => by
        have hi0 : i = 0 := by omega
        subst hi0
        decide)).1 1 (by omega)

end BPipes
end Picast
